import Mathlib

/-!
Verification of the debounced-aggregation / rotating-dispatch bot core

This file gives a shallow embedding of the core logic of `bot.py`:
the pending-request store (`user_requests`), the timer table
(`request_timers`), the credential rotator (`get_next_api_key`), the
request-id generator (`generate_request_id`), the Gemini call wrapper
(`call_gemini_api`), and the handlers (`handle_message`, `cmd_status`,
`cmd_cancel`, and the delayed dispatch task `process_request_with_delay`).

Conventions of the embedding:
* Time is a natural number of seconds; `int(datetime.now().timestamp())`
  is the `now : Nat` parameter threaded into each event.
* Python dicts are modelled as insertion-ordered association lists
  (update of an existing key keeps its position, a new key is appended,
  `pop` removes the key), matching CPython dict semantics.
* The chat transport (`bot.send_message` / `message.answer`) is an
  external collaborator; deliveries are modelled as appending to a
  `sent` log and always succeed (the code catches and logs delivery
  failures).
* The HTTP exchange inside `call_gemini_api` is external; its outcome
  is an `ApiOutcome` oracle parameter (success, malformed body,
  non-200 status, network error, timeout).  Attempted upstream calls
  are recorded in an `api_calls` log.
* The bot runs on Python ≥ 3.8 / aiogram 3.7+, where
  `asyncio.CancelledError` derives from `BaseException`: it is caught
  by a bare `except:` but not by `except Exception`.
-/

namespace Kopiraiter

/-! ## Decimal rendering of naturals

`bot.py` builds request ids with `f"{user_id}_{timestamp}"`.  To reason
about these strings we relate `Nat.repr` to a structurally recursive
digit-list function `rep10` and prove that the rendered digits contain
no underscore and determine the number uniquely. -/

/-- Structural reference version of base-10 digit rendering
(most significant digit first), mirroring `Nat.toDigits 10`. -/
def rep10 (n : Nat) : List Char :=
  if _h : n < 10 then [Nat.digitChar n]
  else rep10 (n / 10) ++ [Nat.digitChar (n % 10)]
  decreasing_by
    exact Nat.div_lt_self (by omega) (by omega)

/-! ## Request ids (`generate_request_id`, bot.py lines 72-75) -/

/-- `generate_request_id(user_id)` returns `f"{user_id}_{timestamp}"`
where `timestamp = int(datetime.now().timestamp())`; the creation
instant is passed explicitly as `now`. -/
def generate_request_id (user_id : Nat) (now : Nat) : String :=
  Nat.repr user_id ++ "_" ++ Nat.repr now

/-- Python's `str.startswith`, modelled on the underlying char lists. -/
def pyStartswith (s pre : String) : Bool :=
  pre.data.isPrefixOf s.data

/-- The owner tag `f"{user_id}_"` used by the timer scan in
`handle_message` (bot.py line 299). -/
def ownerTag (user_id : Nat) : String :=
  Nat.repr user_id ++ "_"

/-- Python's `str.strip()` (no argument): remove leading and trailing
whitespace.  Modelled on the character list. -/
def pyStrip (s : String) : String :=
  ⟨((s.data.dropWhile Char.isWhitespace).reverse.dropWhile Char.isWhitespace).reverse⟩

/-- Python's slice `s[:n]`: the first `n` characters. -/
def pyTake (s : String) (n : Nat) : String :=
  ⟨s.data.take n⟩

/-- Helper for `str.split(",")`. -/
def splitCommaAux : List Char → List Char → List String
  | [], acc => [⟨acc.reverse⟩]
  | c :: cs, acc =>
    if c = ',' then ⟨acc.reverse⟩ :: splitCommaAux cs [] else splitCommaAux cs (c :: acc)

/-- Python's `s.split(",")` (keeps empty fields, `"".split(",") = [""]`). -/
def pySplitComma (s : String) : List String :=
  splitCommaAux s.data []

/-! ## Data model

`user_requests : Dict[int, Dict]` maps a user id to the dict of that
user's pending requests (`request_id -> {"prompt": ..., "created": ...}`),
`request_timers : Dict[str, asyncio.Task]` maps a request id to its
delay task (we track the ordered key set; the task value is the delayed
dispatch itself), and `current_key_index` is the rotator cursor
(bot.py lines 56-58).  Python dicts are insertion-ordered association
lists here. -/

/-- One stored request: the accumulated `"prompt"` text and the
`"created"` instant (the code stores a formatted clock string; we keep
the instant itself). -/
structure ReqData where
  prompt : String
  created : Nat
deriving DecidableEq

/-- `d[k]` (`None` if absent): first binding of `k`. -/
def assocGet? {κ β : Type} [DecidableEq κ] (l : List (κ × β)) (k : κ) : Option β :=
  (l.find? (fun kv => decide (kv.1 = k))).map (·.2)

/-- `d[k] = v`: replace in place if the key exists, else append
(CPython dict update order). -/
def assocSet {κ β : Type} [DecidableEq κ] (l : List (κ × β)) (k : κ) (v : β) : List (κ × β) :=
  match l with
  | [] => [(k, v)]
  | kv :: rest => if kv.1 = k then (k, v) :: rest else kv :: assocSet rest k v

/-- `d.pop(k, None)`: drop the binding of `k` if present. -/
def assocErase {κ β : Type} [DecidableEq κ] (l : List (κ × β)) (k : κ) : List (κ × β) :=
  match l with
  | [] => []
  | kv :: rest => if kv.1 = k then rest else kv :: assocErase rest k

/-- `d[k]["prompt"] = ...`: update the value bound to `k` in place. -/
def assocModify {κ β : Type} [DecidableEq κ] (l : List (κ × β)) (k : κ) (f : β → β) :
    List (κ × β) :=
  match l with
  | [] => []
  | kv :: rest => if kv.1 = k then (kv.1, f kv.2) :: rest else kv :: assocModify rest k f

/-- The global mutable state of bot.py (lines 56-58) together with the
logs of externally visible effects: `sent` records every
`bot.send_message` / `message.answer` delivery (owner, text), and
`api_calls` records every attempted upstream call
(prompt, request id, credential used). -/
structure BotState where
  user_requests : List (Nat × List (String × ReqData))
  request_timers : List String
  current_key_index : Nat
  gemini_api_keys : List String
  sent : List (Nat × String)
  api_calls : List (String × String × String)
deriving DecidableEq

/-- `user_requests.get(user_id, {})`. -/
def bucketOf (st : BotState) (u : Nat) : List (String × ReqData) :=
  (assocGet? st.user_requests u).getD []

def initState (keys : List String) : BotState :=
  { user_requests := [], request_timers := [], current_key_index := 0,
    gemini_api_keys := keys, sent := [], api_calls := [] }

/-! ## Credential rotation and the Gemini call (bot.py lines 61-123) -/

/-- `get_next_api_key` (lines 61-70): raises `ValueError` on an empty
pool (modelled as `Except.error`), otherwise returns
`GEMINI_API_KEYS[current_key_index]` and advances the cursor modulo the
pool size. -/
def get_next_api_key (keys : List String) (idx : Nat) : Except String (String × Nat) :=
  if keys.isEmpty then .error "No Gemini API keys available"
  else .ok (keys.getD idx "", (idx + 1) % keys.length)

/-- Classified outcome of the external HTTP exchange inside
`call_gemini_api`.  `httpError s` stands for a response with non-200
status `s`; `malformed` for a 200 response without `candidates`;
`networkError` for `aiohttp.ClientError`; `timeout` for the
`asyncio.TimeoutError` raised by the 30-second client timeout (caught
by the generic `except Exception` branch, line 121). -/
inductive ApiOutcome where
  | ok (text : String)
  | malformed
  | httpError (status : Nat)
  | networkError
  | timeout
deriving DecidableEq

/-- The string `call_gemini_api` returns for each outcome
(bot.py lines 104-123). -/
def apiResponseText : ApiOutcome → String
  | .ok t => t
  | .malformed => "❌ Ошибка: неверный формат ответа от API"
  | .httpError s => "❌ Ошибка API: " ++ Nat.repr s
  | .networkError => "❌ Ошибка сети при подключении к API"
  | .timeout => "❌ Неожиданная ошибка при обработке запроса"

/-- The outcomes the spec classifies as failures (timeout, network
error, non-success status, malformed response). -/
def ApiOutcome.isFailure : ApiOutcome → Bool
  | .ok _ => false
  | _ => true

/-- `n` successive calls to `get_next_api_key`, collecting the handed
out credentials (stops if the pool is empty and the call raises). -/
def rotateOutputs (keys : List String) (idx : Nat) : Nat → List String
  | 0 => []
  | n + 1 =>
    match get_next_api_key keys idx with
    | .error _ => []
    | .ok (k, idx1) => k :: rotateOutputs keys idx1 n

/-- `call_gemini_api` (lines 77-123): consumes the next credential
first, then performs one HTTP attempt whose outcome is the oracle `o`.
Returns the response text, the new cursor, and the list of attempted
calls (empty when `get_next_api_key` raised: that `ValueError` is
caught by `except Exception` and no request is sent). -/
def call_gemini_api (keys : List String) (idx : Nat) (prompt rid : String) (o : ApiOutcome) :
    String × Nat × List (String × String × String) :=
  match get_next_api_key keys idx with
  | .error _ => ("❌ Неожиданная ошибка при обработке запроса", idx, [])
  | .ok (key, idx1) => (apiResponseText o, idx1, [(prompt, rid, key)])

/-! ## Message texts -/

def blankReply : String := "❌ Пожалуйста, отправьте текст для обработки."

/-- Confirmation sent on lines 284-294. -/
def confirmationText (rid : String) : String :=
  "\n✅ Запрос получен!\n\n📝 ID запроса: `" ++ rid ++
  "`\n🕐 Обработка начнется через 1 минуту...\n✏️ Вы можете отправить дополнительные уточнения в течение этого времени.\n\nИспользуйте /status для проверки состояния.\nИспользуйте /cancel для отмены всех запросов.\n"

def processingText (rid : String) : String :=
  "🔄 Обрабатываю запрос ID: " ++ rid

/-- The literal separator inserted between merged prompts (line 311). -/
def separatorMarker : String := "\n\nДополнение:\n"

/-- Final response formatting (line 147). -/
def formatResponse (rid resp : String) : String :=
  "✨【Ответ на запрос " ++ rid ++ "】✨\n\n" ++ resp ++ "\n\n📌 Конец ответа"

def noCancelReply : String := "❌ Нет запросов для отмены."

def cancelReply (count cancelled : Nat) : String :=
  "✅ Отменено " ++ Nat.repr count ++ " запросов (" ++ Nat.repr cancelled ++ " таймеров)."

def statusEmptyReply : String := "✅ У вас нет ожидающих запросов."

def statusHeader : String := "📋 Ваши текущие запросы:\n\n"

/-- One entry of the `/status` report (lines 227-233).  The preview is
`req_data.get("prompt", "")[:50] + "..."`; note the ellipsis is
appended unconditionally. -/
def statusBlock (rid : String) (d : ReqData) : String :=
  "• ID: `" ++ rid ++ "`\n" ++ "  Текст: " ++ (pyTake d.prompt 50 ++ "...") ++ "\n" ++
  "  Создан: " ++ Nat.repr d.created ++ "\n" ++ "  Статус: ⏳ Ожидает обработки\n\n"

/-- The preview the specification mandates: first 50 characters with an
ellipsis only if the text is longer.  Stated from the spec's words, for
comparison with the `statusBlock` rendered by the code. -/
def specPreview (s : String) : String :=
  pyTake s 50 ++ (if 50 < s.data.length then "..." else "")

/-- The status entry as the specification describes it (differs from
`statusBlock` only in the preview). -/
def specStatusBlock (rid : String) (d : ReqData) : String :=
  "• ID: `" ++ rid ++ "`\n" ++ "  Текст: " ++ specPreview d.prompt ++ "\n" ++
  "  Создан: " ++ Nat.repr d.created ++ "\n" ++ "  Статус: ⏳ Ожидает обработки\n\n"

/-! ## Handlers -/

/-- First atomic segment of `handle_message` on non-blank input
(lines 274-294): generate the id, store the request under it, and
deliver the confirmation.  The segment ends at the
`await message.answer(confirmation_text)` suspension point. -/
def handleMessageStore (st : BotState) (u : Nat) (text : String) (now : Nat) : BotState :=
  let rid := generate_request_id u now
  let bucket := bucketOf st u
  let bucket1 := assocSet bucket rid { prompt := text, created := now }
  { st with user_requests := assocSet st.user_requests u bucket1,
            sent := st.sent ++ [(u, confirmationText rid)] }

/-- `request_timers[request_id] = timer_task`: dict assignment keeps an
existing key's position, otherwise appends. -/
def timerInstall (ts : List String) (rid : String) : List String :=
  if rid ∈ ts then ts else ts ++ [rid]

/-- Second atomic segment of `handle_message` (lines 296-324): scan
`request_timers` for the first key with prefix `f"{user_id}_"`,
cancel and drop it; if that id still names a stored request, merge the
old prompt into the new entry (old text, separator, new text) and drop
the old entry; finally register the new timer.  This segment contains
no suspension point. -/
def handleMessageMerge (st : BotState) (u : Nat) (text : String) (now : Nat) : BotState :=
  let rid := generate_request_id u now
  match st.request_timers.find? (fun r => pyStartswith r (ownerTag u)) with
  | none =>
      { st with request_timers := timerInstall st.request_timers rid }
  | some oldRid =>
      let timers1 := st.request_timers.erase oldRid
      let bucket := bucketOf st u
      let st1 :=
        match assocGet? bucket oldRid with
        | some oldData =>
            let bucket1 := assocModify bucket rid
              (fun d => { d with prompt := oldData.prompt ++ separatorMarker ++ text })
            let bucket2 := assocErase bucket1 oldRid
            { st with user_requests := assocSet st.user_requests u bucket2,
                      request_timers := timers1 }
        | none => { st with request_timers := timers1 }
      { st1 with request_timers := timerInstall st1.request_timers rid }

/-- `handle_message` (lines 264-324) as one event turn: blank input is
rejected on line 270-272 before any state is touched; otherwise the
store segment runs, the handler suspends on the confirmation delivery,
and the merge segment completes the turn. -/
def handle_message (st : BotState) (u : Nat) (text : String) (now : Nat) : BotState :=
  if pyStrip text = "" then { st with sent := st.sent ++ [(u, blankReply)] }
  else handleMessageMerge (handleMessageStore st u text now) u text now

/-- The full uncancelled run of `process_request_with_delay`
(lines 125-173) from the moment `asyncio.sleep(60)` returns: check the
store, and if the id is still present dispatch (processing notice,
upstream call via the rotator, formatted response), then remove the
entry (lines 159-164) and, in `finally`, the timer handle. -/
def process_request_fire (st : BotState) (u : Nat) (rid : String) (o : ApiOutcome) : BotState :=
  let st1 :=
    match assocGet? st.user_requests u with
    | none => st
    | some bucket =>
        match assocGet? bucket rid with
        | none => st
        | some data =>
            if data.prompt = "" then st
            else
              let stn := { st with sent := st.sent ++ [(u, processingText rid)] }
              let r := call_gemini_api stn.gemini_api_keys stn.current_key_index data.prompt rid o
              { stn with current_key_index := r.2.1,
                         api_calls := stn.api_calls ++ r.2.2,
                         sent := stn.sent ++ [(u, formatResponse rid r.1)] }
  let st2 :=
    match assocGet? st1.user_requests u with
    | none => st1
    | some bucket =>
        let bucket1 := assocErase bucket rid
        if bucket1.isEmpty then { st1 with user_requests := assocErase st1.user_requests u }
        else { st1 with user_requests := assocSet st1.user_requests u bucket1 }
  { st2 with request_timers := st2.request_timers.erase rid }

/-- `cmd_cancel` (lines 237-262): if the user has pending requests,
cancel every registered timer among them, clear the user's entries and
report the counts; otherwise reply that there is nothing to cancel. -/
def cmd_cancel (st : BotState) (u : Nat) : BotState :=
  let bucket := bucketOf st u
  if bucket.isEmpty then
    { st with sent := st.sent ++ [(u, noCancelReply)] }
  else
    let count := bucket.length
    let cancelledCount := (bucket.filter (fun kv => decide (kv.1 ∈ st.request_timers))).length
    let timers1 := bucket.foldl (fun ts kv => ts.erase kv.1) st.request_timers
    { st with user_requests := assocErase st.user_requests u,
              request_timers := timers1,
              sent := st.sent ++ [(u, cancelReply count cancelledCount)] }

/-- `cmd_status` (lines 217-235). -/
def cmd_status (st : BotState) (u : Nat) : BotState :=
  let bucket := bucketOf st u
  if bucket.isEmpty then
    { st with sent := st.sent ++ [(u, statusEmptyReply)] }
  else
    let txt := bucket.foldl (fun acc kv => acc ++ statusBlock kv.1 kv.2) statusHeader
    { st with sent := st.sent ++ [(u, txt)] }

/-! ## Mid-flight dispatch segments

Used to model the interleaving where `cmd_cancel` arrives while a
fired dispatch is awaiting the HTTP response. -/

/-- The dispatch task from the end of its sleep up to its suspension at
the HTTP request (lines 131-144 and the synchronous prelude of
`call_gemini_api`): the existence check passes, the processing notice
is delivered, and the next credential is consumed.  The store entry
and the timer handle are both still present at this suspension
point. -/
def fireUpToHttp (st : BotState) (u : Nat) (rid : String) : BotState :=
  match assocGet? st.user_requests u with
  | none => st
  | some bucket =>
      match assocGet? bucket rid with
      | none => st
      | some data =>
          if data.prompt = "" then st
          else
            let stn := { st with sent := st.sent ++ [(u, processingText rid)] }
            match get_next_api_key stn.gemini_api_keys stn.current_key_index with
            | .error _ => stn
            | .ok (key, idx1) =>
                { stn with current_key_index := idx1,
                           api_calls := stn.api_calls ++ [(data.prompt, rid, key)] }

/-- Resumption of a dispatch task whose `Task.cancel` was requested
while it was suspended at the HTTP request: `CancelledError` is raised
at the await, is not caught inside `call_gemini_api` (its handlers
catch `aiohttp.ClientError` and `Exception`; on Python ≥ 3.8
`CancelledError` derives from `BaseException`), lands in the
`except asyncio.CancelledError` handler (line 166) and the `finally`
block drops the timer handle (lines 170-173).  No response is sent and
the store is not touched. -/
def resumeCancelledAtHttp (st : BotState) (rid : String) : BotState :=
  { st with request_timers := st.request_timers.erase rid }

/-! ## Startup configuration (bot.py lines 30-51) -/

structure Env where
  telegram_bot_token : Option String
  gemini_api_keys : Option String
deriving DecidableEq

def placeholderKeys : List String :=
  ["your_gemini_api_key_1_here", "your_gemini_api_key_2_here", "your_gemini_api_key_3_here"]

/-- `[key.strip() for key in keys_str.split(",") if key.strip()]`. -/
def parseKeys (s : String) : List String :=
  ((pySplitComma s).map pyStrip).filter (fun k => k != "")

structure Config where
  bot_token : String
  keys : List String
deriving DecidableEq

/-- Startup (lines 30-51): a missing or empty `TELEGRAM_BOT_TOKEN`
calls `sys.exit(1)`; `GEMINI_API_KEYS` falls back to the placeholder
list when the variable is unset or empty, and the emptiness /
placeholder check on line 49 only emits `logger.warning` — the process
proceeds. -/
def startup (env : Env) : Except Unit Config :=
  match env.telegram_bot_token with
  | none => .error ()
  | some tok =>
      if tok = "" then .error ()
      else
        let keysStr := (env.gemini_api_keys).getD ""
        let keys := if keysStr ≠ "" then parseKeys keysStr else placeholderKeys
        .ok { bot_token := tok, keys := keys }

/-! ## Event turns

All mutations happen between suspension points on the single asyncio
thread; a run is a sequence of whole event turns.  A timer fire is
identified by the owner and creation instant of the task that was
scheduled (tasks are created in `handle_message` with
`request_id = generate_request_id(user_id)`); cancellation of a timer
removes it from `request_timers` in the same turn, so only registered
timers can fire. -/
inductive Event where
  | msg (u : Nat) (text : String) (now : Nat)
  | fire (u : Nat) (t : Nat) (o : ApiOutcome)
  | statusQuery (u : Nat)
  | cancelAll (u : Nat)
deriving DecidableEq

def stepEvent (st : BotState) : Event → BotState
  | .msg u text now => handle_message st u text now
  | .fire u t o => process_request_fire st u (generate_request_id u t) o
  | .statusQuery u => cmd_status st u
  | .cancelAll u => cmd_cancel st u

def runEvents (st : BotState) (evs : List Event) : BotState :=
  evs.foldl stepEvent st

/-- The inductive invariant of reachable states: every owner has at
most one stored request; every stored request's id was generated for
its owner and still has a registered timer; every owner has at most
one registered timer (keyed by the owner tag); every timer key is a
generated id; and the store's owner keys are duplicate-free. -/
def WFState (st : BotState) : Prop :=
  (∀ u, (bucketOf st u).length ≤ 1) ∧
  (∀ u, ∀ kv ∈ bucketOf st u,
    (∃ t, kv.1 = generate_request_id u t) ∧ kv.1 ∈ st.request_timers) ∧
  (∀ u, (st.request_timers.filter (fun r => pyStartswith r (ownerTag u))).length ≤ 1) ∧
  (∀ r ∈ st.request_timers, ∃ v t, r = generate_request_id v t) ∧
  (st.user_requests.map (·.1)).Nodup

/-! ## Properties of decimal rendering and request ids -/

theorem rep10_def (n : Nat) :
    rep10 n = if n < 10 then [Nat.digitChar n]
      else rep10 (n / 10) ++ [Nat.digitChar (n % 10)] := by
  rw [rep10]
  split <;> rfl

theorem rep10_ne_nil (n : Nat) : rep10 n ≠ [] := by
  rw [rep10_def]
  split <;> simp

theorem toDigitsCore_eq_rep10 (fuel n : Nat) (ds : List Char) (h : n < fuel) :
    Nat.toDigitsCore 10 fuel n ds = rep10 n ++ ds := by
  induction fuel generalizing n ds with
  | zero => omega
  | succ f ih =>
    rw [Nat.toDigitsCore]
    by_cases h10 : n / 10 = 0
    · have hn : n < 10 := by omega
      rw [if_pos h10, rep10_def, if_pos hn, Nat.mod_eq_of_lt hn]
      rfl
    · have hn : ¬ n < 10 := by omega
      have hlt : n / 10 < f := by omega
      rw [if_neg h10, ih _ _ hlt, rep10_def n, if_neg hn, List.append_assoc]
      rfl

theorem repr_data_eq_rep10 (n : Nat) : (Nat.repr n).data = rep10 n := by
  show (Nat.toDigits 10 n).asString.data = rep10 n
  rw [Nat.toDigits, toDigitsCore_eq_rep10 (n + 1) n [] (by omega)]
  simp [List.asString]

theorem digitChar_ne_underscore (d : Nat) (hd : d < 10) :
    Nat.digitChar d ≠ '_' := by
  interval_cases d <;> decide

theorem digitChar_inj (d e : Nat) (hd : d < 10) (he : e < 10)
    (h : Nat.digitChar d = Nat.digitChar e) : d = e := by
  interval_cases d <;> interval_cases e <;> first | rfl | exact absurd h (by decide)

theorem rep10_mem_digit (n : Nat) : ∀ c ∈ rep10 n, ∃ d, d < 10 ∧ c = Nat.digitChar d := by
  induction n using Nat.strong_induction_on with
  | _ n ih =>
    rw [rep10_def]
    split
    · intro c hc
      simp only [List.mem_singleton] at hc
      exact ⟨n, by omega, hc⟩
    · intro c hc
      rcases List.mem_append.mp hc with h1 | h2
      · exact ih (n / 10) (Nat.div_lt_self (by omega) (by omega)) c h1
      · simp only [List.mem_singleton] at h2
        exact ⟨n % 10, Nat.mod_lt _ (by omega), h2⟩

theorem underscore_not_mem_rep10 (n : Nat) : '_' ∉ rep10 n := by
  intro hmem
  obtain ⟨d, hd, hc⟩ := rep10_mem_digit n _ hmem
  exact digitChar_ne_underscore d hd hc.symm

theorem rep10_inj (m : Nat) : ∀ n, rep10 m = rep10 n → m = n := by
  induction m using Nat.strong_induction_on with
  | _ m ih =>
    intro n h
    rw [rep10_def m, rep10_def n] at h
    by_cases hm : m < 10 <;> by_cases hn : n < 10
    · rw [if_pos hm, if_pos hn] at h
      simp only [List.cons.injEq] at h
      exact digitChar_inj m n hm hn h.1
    · rw [if_pos hm, if_neg hn] at h
      rcases hrep : rep10 (n / 10) with _ | ⟨c, cs⟩
      · exact absurd hrep (rep10_ne_nil _)
      · rw [hrep] at h
        simp at h
    · rw [if_neg hm, if_pos hn] at h
      rcases hrep : rep10 (m / 10) with _ | ⟨c, cs⟩
      · exact absurd hrep (rep10_ne_nil _)
      · rw [hrep] at h
        simp at h
    · rw [if_neg hm, if_neg hn] at h
      have hparts := List.append_inj' h (by simp)
      have h1 : m / 10 = n / 10 :=
        ih (m / 10) (Nat.div_lt_self (by omega) (by omega)) (n / 10) hparts.1
      have h2 : m % 10 = n % 10 := by
        have := hparts.2
        simp only [List.cons.injEq] at this
        exact digitChar_inj _ _ (Nat.mod_lt _ (by omega)) (Nat.mod_lt _ (by omega)) this.1
      omega

/-- Splitting a string of shape `digits ++ "_" ++ tail` at the first
underscore is unambiguous. -/
theorem append_underscore_inj {a b t s : List Char}
    (ha : '_' ∉ a) (hb : '_' ∉ b)
    (h : a ++ '_' :: t = b ++ '_' :: s) : a = b ∧ t = s := by
  induction a generalizing b with
  | nil =>
    cases b with
    | nil => simpa using h
    | cons y ys =>
      exfalso
      simp only [List.nil_append, List.cons_append, List.cons.injEq] at h
      exact hb (h.1 ▸ List.mem_cons_self y ys)
  | cons x xs ih =>
    cases b with
    | nil =>
      exfalso
      simp only [List.cons_append, List.nil_append, List.cons.injEq] at h
      exact ha (h.1 ▸ List.mem_cons_self x xs)
    | cons y ys =>
      simp only [List.cons_append, List.cons.injEq] at h
      have := ih (fun hx => ha (List.mem_cons_of_mem x hx))
        (fun hy => hb (List.mem_cons_of_mem y hy)) h.2
      exact ⟨by rw [h.1, this.1], this.2⟩

theorem prefix_underscore_inj {a b s : List Char}
    (ha : '_' ∉ a) (hb : '_' ∉ b)
    (h : a ++ ['_'] <+: b ++ '_' :: s) : a = b := by
  induction a generalizing b with
  | nil =>
    cases b with
    | nil => rfl
    | cons y ys =>
      exfalso
      rw [List.nil_append, List.cons_append] at h
      rw [List.cons_prefix_cons] at h
      exact hb (h.1 ▸ List.mem_cons_self y ys)
  | cons x xs ih =>
    cases b with
    | nil =>
      exfalso
      rw [List.cons_append, List.nil_append, List.cons_prefix_cons] at h
      exact ha (h.1 ▸ List.mem_cons_self x xs)
    | cons y ys =>
      rw [List.cons_append, List.cons_append, List.cons_prefix_cons] at h
      have := ih (fun hx => ha (List.mem_cons_of_mem x hx))
        (fun hy => hb (List.mem_cons_of_mem y hy)) h.2
      rw [h.1, this]

theorem generate_request_id_data (u t : Nat) :
    (generate_request_id u t).data = rep10 u ++ '_' :: rep10 t := by
  show (Nat.repr u).data ++ ("_" : String).data ++ (Nat.repr t).data = _
  rw [repr_data_eq_rep10, repr_data_eq_rep10]
  simp

theorem generate_request_id_inj {u t v s : Nat}
    (h : generate_request_id u t = generate_request_id v s) : u = v ∧ t = s := by
  have hd : (generate_request_id u t).data = (generate_request_id v s).data :=
    congrArg String.data h
  rw [generate_request_id_data, generate_request_id_data] at hd
  have := append_underscore_inj (underscore_not_mem_rep10 u)
    (underscore_not_mem_rep10 v) hd
  exact ⟨rep10_inj u v this.1, rep10_inj t s this.2⟩

theorem ownerTag_data (u : Nat) : (ownerTag u).data = rep10 u ++ ['_'] := by
  show (Nat.repr u).data ++ ("_" : String).data = _
  rw [repr_data_eq_rep10]

/-! ## Association-list (Python dict) lemmas -/

section AssocLemmas

variable {κ β : Type} [DecidableEq κ]

@[simp] theorem assocGet?_nil (k : κ) : assocGet? ([] : List (κ × β)) k = none := rfl

@[simp] theorem assocGet?_cons (kv : κ × β) (l : List (κ × β)) (k : κ) :
    assocGet? (kv :: l) k = if kv.1 = k then some kv.2 else assocGet? l k := by
  by_cases h : kv.1 = k <;> simp [assocGet?, List.find?_cons, h]

theorem assocGet?_set_self (l : List (κ × β)) (k : κ) (v : β) :
    assocGet? (assocSet l k v) k = some v := by
  induction l with
  | nil => simp [assocSet]
  | cons kv rest ih =>
    rw [assocSet]
    by_cases h : kv.1 = k
    · simp [h]
    · simp [h, ih]

theorem assocGet?_set_ne (l : List (κ × β)) (k k' : κ) (v : β) (h : k' ≠ k) :
    assocGet? (assocSet l k v) k' = assocGet? l k' := by
  induction l with
  | nil => simp [assocSet, Ne.symm h]
  | cons kv rest ih =>
    rw [assocSet]
    by_cases hk : kv.1 = k
    · simp [Ne.symm h, hk, hk ▸ Ne.symm h]
    · simp [hk, ih]

theorem assocGet?_erase_ne (l : List (κ × β)) (k k' : κ) (h : k' ≠ k) :
    assocGet? (assocErase l k) k' = assocGet? l k' := by
  induction l with
  | nil => simp [assocErase]
  | cons kv rest ih =>
    rw [assocErase]
    by_cases hk : kv.1 = k
    · rw [if_pos hk]
      have : ¬ kv.1 = k' := fun hh => h (hh ▸ hk ▸ rfl)
      simp [this]
    · rw [if_neg hk]
      simp [ih]

theorem assocGet?_eq_none_iff (l : List (κ × β)) (k : κ) :
    assocGet? l k = none ↔ ∀ kv ∈ l, kv.1 ≠ k := by
  induction l with
  | nil => simp
  | cons kv rest ih =>
    by_cases h : kv.1 = k
    · simp [h]
    · simp [h, ih]

theorem assocGet?_erase_self (l : List (κ × β)) (k : κ)
    (h : (l.map (·.1)).Nodup) : assocGet? (assocErase l k) k = none := by
  induction l with
  | nil => simp [assocErase]
  | cons kv rest ih =>
    rw [assocErase]
    simp only [List.map_cons, List.nodup_cons] at h
    by_cases hk : kv.1 = k
    · rw [if_pos hk, assocGet?_eq_none_iff]
      intro kv' hkv' heq
      exact h.1 (hk ▸ heq ▸ List.mem_map_of_mem (·.1) hkv')
    · rw [if_neg hk]
      simp [hk, ih h.2]

theorem assocErase_sublist (l : List (κ × β)) (k : κ) : List.Sublist (assocErase l k) l := by
  induction l with
  | nil => simp [assocErase]
  | cons kv rest ih =>
    rw [assocErase]
    by_cases h : kv.1 = k
    · rw [if_pos h]
      exact List.sublist_cons_self kv rest
    · rw [if_neg h]
      exact ih.cons₂ kv

theorem mem_assocSet {l : List (κ × β)} {k : κ} {v : β} {kv : κ × β}
    (h : kv ∈ assocSet l k v) : kv = (k, v) ∨ kv ∈ l := by
  induction l with
  | nil => simpa [assocSet] using h
  | cons kv0 rest ih =>
    rw [assocSet] at h
    by_cases hk : kv0.1 = k
    · rw [if_pos hk] at h
      rcases List.mem_cons.mp h with h1 | h1
      · exact Or.inl h1
      · exact Or.inr (List.mem_cons_of_mem _ h1)
    · rw [if_neg hk] at h
      rcases List.mem_cons.mp h with h1 | h1
      · exact Or.inr (h1 ▸ List.mem_cons_self _ _)
      · rcases ih h1 with h2 | h2
        · exact Or.inl h2
        · exact Or.inr (List.mem_cons_of_mem _ h2)

theorem keys_assocSet_of_mem {l : List (κ × β)} {k : κ} (v : β)
    (h : k ∈ l.map (·.1)) : (assocSet l k v).map (·.1) = l.map (·.1) := by
  induction l with
  | nil => simp at h
  | cons kv0 rest ih =>
    rw [assocSet]
    by_cases hk : kv0.1 = k
    · simp [hk]
    · simp only [List.map_cons] at h
      rcases List.mem_cons.mp h with h1 | h1
      · exact absurd h1.symm hk
      · simp [hk, ih h1]

theorem keys_assocSet_of_not_mem {l : List (κ × β)} {k : κ} (v : β)
    (h : k ∉ l.map (·.1)) : (assocSet l k v).map (·.1) = l.map (·.1) ++ [k] := by
  induction l with
  | nil => simp [assocSet]
  | cons kv0 rest ih =>
    rw [assocSet]
    simp only [List.map_cons, List.mem_cons] at h
    push_neg at h
    rw [if_neg (fun hh => h.1 hh.symm)]
    simp [ih h.2]

theorem keys_assocSet_nodup {l : List (κ × β)} {k : κ} {v : β}
    (h : (l.map (·.1)).Nodup) : ((assocSet l k v).map (·.1)).Nodup := by
  by_cases hm : k ∈ l.map (·.1)
  · rw [keys_assocSet_of_mem v hm]
    exact h
  · rw [keys_assocSet_of_not_mem v hm]
    simp [List.nodup_append, h, hm]

theorem keys_assocModify (l : List (κ × β)) (k : κ) (f : β → β) :
    (assocModify l k f).map (·.1) = l.map (·.1) := by
  induction l with
  | nil => simp [assocModify]
  | cons kv0 rest ih =>
    rw [assocModify]
    by_cases hk : kv0.1 = k
    · simp [hk, ih]
    · simp [hk, ih]

theorem assocGet?_modify_self {l : List (κ × β)} {k : κ} {b : β} (f : β → β)
    (h : assocGet? l k = some b) :
    assocGet? (assocModify l k f) k = some (f b) := by
  induction l with
  | nil => simp at h
  | cons kv0 rest ih =>
    rw [assocModify]
    by_cases hk : kv0.1 = k
    · rw [if_pos hk]
      simp only [assocGet?_cons, if_pos hk, Option.some.injEq] at h
      simp [hk, h]
    · rw [if_neg hk]
      simp only [assocGet?_cons, if_neg hk] at h
      simp [hk, ih h]

theorem assocGet?_modify_ne (l : List (κ × β)) (k k' : κ) (f : β → β) (h : k' ≠ k) :
    assocGet? (assocModify l k f) k' = assocGet? l k' := by
  induction l with
  | nil => simp [assocModify]
  | cons kv0 rest ih =>
    rw [assocModify]
    by_cases hk : kv0.1 = k
    · have hne : ¬ kv0.1 = k' := fun hh => h (hh ▸ hk ▸ rfl)
      simp [hne, hk, ih, Ne.symm h]
    · by_cases hk' : kv0.1 = k'
      · simp [hk, hk', h]
      · simp [hk, hk', ih]

theorem length_assocErase_le (l : List (κ × β)) (k : κ) :
    (assocErase l k).length ≤ l.length :=
  (assocErase_sublist l k).length_le

theorem length_assocSet_le (l : List (κ × β)) (k : κ) (v : β) :
    (assocSet l k v).length ≤ l.length + 1 := by
  induction l with
  | nil => simp [assocSet]
  | cons kv0 rest ih =>
    rw [assocSet]
    by_cases hk : kv0.1 = k
    · simp [hk]
    · simp only [if_neg hk, List.length_cons]
      omega

end AssocLemmas


/-- The timer scan `req_id.startswith(f"{user_id}_")` (bot.py line 299)
matches a generated id exactly when the id belongs to that user:
decimal digits contain no underscore, so prefixes cannot cross the
separator. -/
theorem pyStartswith_ownerTag (u v t : Nat) :
    pyStartswith (generate_request_id v t) (ownerTag u) = true ↔ u = v := by
  unfold pyStartswith
  rw [ownerTag_data, generate_request_id_data]
  constructor
  · intro h
    rw [ List.isPrefixOf_iff_prefix] at h
    exact rep10_inj u v
      (prefix_underscore_inj (underscore_not_mem_rep10 u) (underscore_not_mem_rep10 v) h)
  · intro h
    subst h
    rw [ List.isPrefixOf_iff_prefix]
    exact ⟨rep10 t, by simp⟩



/-! ## String fold helpers -/

theorem foldl_append_shift {α : Type} (g : α → String) (l : List α) (init : String) :
    l.foldl (fun acc x => acc ++ g x) init
      = init ++ l.foldl (fun acc x => acc ++ g x) "" := by
  induction l generalizing init with
  | nil => simp
  | cons x xs ih =>
    rw [List.foldl_cons, List.foldl_cons, ih (init ++ g x), ih ("" ++ g x)]
    rw [String.empty_append, String.append_assoc]

theorem foldl_append_eq_join {α : Type} (g : α → String) (l : List α) (init : String) :
    l.foldl (fun acc x => acc ++ g x) init = init ++ String.join (l.map g) := by
  rw [foldl_append_shift]
  congr 1
  show _ = (l.map g).foldl (fun r s => r ++ s) ""
  rw [List.foldl_map]

theorem intercalate_go_eq_foldl (s acc : String) (l : List String) :
    String.intercalate.go acc s l = l.foldl (fun a b => a ++ s ++ b) acc := by
  induction l generalizing acc with
  | nil => rfl
  | cons x xs ih => rw [String.intercalate.go, List.foldl_cons, ih]

theorem intercalate_cons_eq_foldl (s a : String) (l : List String) :
    String.intercalate s (a :: l) = l.foldl (fun x b => x ++ s ++ b) a := by
  rw [String.intercalate, intercalate_go_eq_foldl]

theorem append_ne_empty_left (a b : String) (h : a ≠ "") : a ++ b ≠ "" := by
  intro hc
  apply h
  have := congrArg String.data hc
  rw [String.data_append] at this
  rcases List.append_eq_nil.mp this with ⟨h1, _⟩
  exact String.ext h1

/-! ## Shape of a fire whose request id was already superseded -/

theorem fire_superseded_shape (st : BotState) (u : Nat) (rid : String) (o : ApiOutcome)
    (h : assocGet? (bucketOf st u) rid = none) :
    ∃ ur, process_request_fire st u rid o =
      { st with user_requests := ur, request_timers := st.request_timers.erase rid } := by
  unfold process_request_fire
  cases hu : assocGet? st.user_requests u with
  | none =>
    simp only [hu]
    exact ⟨st.user_requests, rfl⟩
  | some bucket =>
    have hb : assocGet? bucket rid = none := by
      simpa [bucketOf, hu] using h
    simp only [hu, hb]
    by_cases he : (assocErase bucket rid).isEmpty
    · rw [if_pos he]
      exact ⟨assocErase st.user_requests u, rfl⟩
    · rw [if_neg he]
      exact ⟨assocSet st.user_requests u (assocErase bucket rid), rfl⟩

/-! ## C10 -/

/-- C10: an inbound message whose text is empty or whitespace-only is
answered with an error notice and changes no core state: no store
entry, no generated id, no timer, no credential use (bot.py
lines 270-272 return before any mutation). -/
theorem C10_blank_message_rejected (st : BotState) (u : Nat) (text : String) (now : Nat)
    (h : pyStrip text = "") :
    handle_message st u text now = { st with sent := st.sent ++ [(u, blankReply)] } := by
  unfold handle_message
  rw [if_pos h]

theorem C10_blank_message_rejected_witness :
    (pyStrip "  \n" = "") ∧
      handle_message (initState ["K1"]) 7 "  \n" 3 =
        { initState ["K1"] with sent := [(7, blankReply)] } := by
  refine ⟨by decide, ?_⟩
  have := C10_blank_message_rejected (initState ["K1"]) 7 "  \n" 3 (by decide)
  simpa [initState] using this

/-! ## C9 -/

set_option maxRecDepth 16384 in
/-- C9 counterexample: for the two-character prompt "hi" the spec
mandates the preview "hi" (50 characters or fewer, no ellipsis), but
`/status` renders "hi...": `prompt[:50] + "..."` appends the ellipsis
unconditionally (bot.py line 228). -/
theorem C9_counterexample :
    (cmd_status (handle_message (initState ["K1"]) 1 "hi" 0) 1).sent
        = [(1, confirmationText "1_0"),
           (1, statusHeader ++ statusBlock "1_0" { prompt := "hi", created := 0 })] ∧
    statusBlock "1_0" { prompt := "hi", created := 0 }
        ≠ specStatusBlock "1_0" { prompt := "hi", created := 0 } ∧
    specPreview "hi" = "hi" ∧
    pyTake "hi" 50 ++ "..." = "hi..." := by
  refine ⟨by decide, by decide, by decide, by decide⟩

/-- C9 amended: the `/status` preview is the first 50 characters of the
request text with an ellipsis appended unconditionally (also for texts
of 50 characters or fewer). -/
theorem C9_amended (st : BotState) (u : Nat) (h : bucketOf st u ≠ []) :
    cmd_status st u = { st with sent := st.sent ++
      [(u, statusHeader ++ String.join ((bucketOf st u).map
        (fun kv => "• ID: `" ++ kv.1 ++ "`\n" ++ "  Текст: " ++
          (pyTake kv.2.prompt 50 ++ "...") ++ "\n" ++ "  Создан: " ++ Nat.repr kv.2.created ++
          "\n" ++ "  Статус: ⏳ Ожидает обработки\n\n")))] } := by
  unfold cmd_status
  rw [if_neg (by simpa [List.isEmpty_iff] using h)]
  rw [foldl_append_eq_join (fun kv => statusBlock kv.1 kv.2) (bucketOf st u) statusHeader]
  rfl

set_option maxRecDepth 16384 in
theorem C9_amended_witness :
    cmd_status (handle_message (initState ["K1"]) 1 "hi" 0) 1
      = { handle_message (initState ["K1"]) 1 "hi" 0 with
          sent := (handle_message (initState ["K1"]) 1 "hi" 0).sent ++
            [(1, statusHeader ++ String.join
              ((bucketOf (handle_message (initState ["K1"]) 1 "hi" 0) 1).map
                (fun kv => "• ID: `" ++ kv.1 ++ "`\n" ++ "  Текст: " ++
                  (pyTake kv.2.prompt 50 ++ "...") ++ "\n" ++ "  Создан: " ++
                  Nat.repr kv.2.created ++ "\n" ++ "  Статус: ⏳ Ожидает обработки\n\n")))] } :=
  C9_amended (handle_message (initState ["K1"]) 1 "hi" 0) 1 (by decide)

/-! ## C7 -/

/-- C7 counterexample: with the token set and `GEMINI_API_KEYS=","`
startup succeeds with an **empty** credential pool — the line-49 check
only warns, the process does not exit; and the emptiness check is in
fact performed inside every `get_next_api_key` call (line 64), not once
at startup. -/
theorem C7_counterexample :
    startup { telegram_bot_token := some "t", gemini_api_keys := some "," }
        = .ok { bot_token := "t", keys := [] } ∧
    get_next_api_key [] 0 = .error "No Gemini API keys available" := by
  exact ⟨rfl, rfl⟩

/-- C7 amended: startup aborts exactly when the chat token is missing
(or empty); an absent credential-pool variable is replaced by the
placeholder list and never aborts startup; the pool-emptiness check is
performed on every `next()` call, which raises on an empty pool. -/
theorem C7_amended (env : Env) (tok : String)
    (htok : env.telegram_bot_token = some tok) (hne : tok ≠ "") :
    startup { telegram_bot_token := none, gemini_api_keys := env.gemini_api_keys }
        = .error () ∧
    (∃ cfg, startup env = .ok cfg ∧ cfg.bot_token = tok) ∧
    (∀ idx, get_next_api_key [] idx = .error "No Gemini API keys available") ∧
    (env.gemini_api_keys = none →
      startup env = .ok { bot_token := tok, keys := placeholderKeys }) := by
  rcases env with ⟨t, g⟩
  simp only [Env.telegram_bot_token] at htok
  subst htok
  refine ⟨rfl, ?_, fun idx => rfl, ?_⟩
  · refine ⟨⟨tok, if (g.getD "") ≠ "" then parseKeys (g.getD "") else placeholderKeys⟩, ?_, rfl⟩
    simp [startup, hne]
  · intro hg
    simp only [Env.gemini_api_keys] at hg
    subst hg
    simp [startup, hne]

theorem C7_amended_witness :
    (startup { telegram_bot_token := none, gemini_api_keys := none } = .error ()) ∧
    (∃ cfg, startup { telegram_bot_token := some "t", gemini_api_keys := none } = .ok cfg ∧
      cfg.bot_token = "t") ∧
    (∀ idx, get_next_api_key [] idx = .error "No Gemini API keys available") ∧
    ((none : Option String) = none →
      startup { telegram_bot_token := some "t", gemini_api_keys := none }
        = .ok { bot_token := "t", keys := placeholderKeys }) :=
  C7_amended { telegram_bot_token := some "t", gemini_api_keys := none } "t" rfl (by decide)

/-! ## C6 -/

/-- C6: when the timer fires for a request id that is no longer stored
for that owner, the dispatch step stops: no notification is sent, no
credential is consumed, no upstream call is attempted, and the task
finishes without error (bot.py line 132 guards the whole dispatch
body; the modelled fire function is total). -/
theorem C6_superseded_fire_stops (st : BotState) (u : Nat) (rid : String) (o : ApiOutcome)
    (h : assocGet? (bucketOf st u) rid = none) :
    (process_request_fire st u rid o).sent = st.sent ∧
    (process_request_fire st u rid o).api_calls = st.api_calls ∧
    (process_request_fire st u rid o).current_key_index = st.current_key_index ∧
    (process_request_fire st u rid o).gemini_api_keys = st.gemini_api_keys := by
  obtain ⟨ur, heq⟩ := fire_superseded_shape st u rid o h
  rw [heq]
  exact ⟨rfl, rfl, rfl, rfl⟩

set_option maxRecDepth 16384 in
theorem C6_superseded_fire_stops_witness :
    (process_request_fire (handle_message (initState ["K1"]) 1 "A" 0) 1 "1_99"
        ApiOutcome.networkError).sent
      = (handle_message (initState ["K1"]) 1 "A" 0).sent ∧
    (process_request_fire (handle_message (initState ["K1"]) 1 "A" 0) 1 "1_99"
        ApiOutcome.networkError).api_calls
      = (handle_message (initState ["K1"]) 1 "A" 0).api_calls ∧
    (process_request_fire (handle_message (initState ["K1"]) 1 "A" 0) 1 "1_99"
        ApiOutcome.networkError).current_key_index
      = (handle_message (initState ["K1"]) 1 "A" 0).current_key_index ∧
    (process_request_fire (handle_message (initState ["K1"]) 1 "A" 0) 1 "1_99"
        ApiOutcome.networkError).gemini_api_keys
      = (handle_message (initState ["K1"]) 1 "A" 0).gemini_api_keys :=
  C6_superseded_fire_stops (handle_message (initState ["K1"]) 1 "A" 0) 1 "1_99"
    ApiOutcome.networkError (by decide)

/-! ## C2 counterexample and C4 -/

set_option maxRecDepth 16384 in
/-- C2 counterexample: `handle_message` stores the new request
(line 278) and then suspends on `await message.answer(...)`
(line 294) *before* the merge block runs, so between those suspension
points the store holds **two** `AggregatedRequest`s for the same
owner — the "at most one per owner at every instant" invariant fails
across that suspension point.  (`handleMessageStore` is exactly the
segment of `handle_message` up to that await.) -/
theorem C2_counterexample :
    bucketOf (handleMessageStore (handle_message (initState ["K1"]) 1 "A" 0) 1 "B" 10) 1
      = [("1_0", { prompt := "A", created := 0 }),
         ("1_10", { prompt := "B", created := 10 })] := by
  decide

set_option maxRecDepth 16384 in
/-- C4 counterexample: owner 1's timer fires at t=60 and the dispatch
suspends at the HTTP request after consuming credential K1 (first two
conjuncts).  A `/cancel` arriving at that moment cancels the running
task: the task is interrupted at the await, delivers **no** response
message (the final `sent` log holds only the confirmation, the
processing notice and the cancel report), and the request is gone —
the in-flight dispatch does *not* run to completion, contradicting the
claim that cancelling an already-fired id is a no-op that lets the
dispatch finish. -/
theorem C4_counterexample :
    (fireUpToHttp (handle_message (initState ["K1", "K2"]) 1 "A" 0) 1 "1_0").api_calls
        = [("A", "1_0", "K1")] ∧
    (fireUpToHttp (handle_message (initState ["K1", "K2"]) 1 "A" 0) 1 "1_0").current_key_index
        = 1 ∧
    (resumeCancelledAtHttp
        (cmd_cancel (fireUpToHttp (handle_message (initState ["K1", "K2"]) 1 "A" 0) 1 "1_0") 1)
        "1_0").sent
      = [(1, confirmationText "1_0"), (1, processingText "1_0"), (1, cancelReply 1 1)] ∧
    (resumeCancelledAtHttp
        (cmd_cancel (fireUpToHttp (handle_message (initState ["K1", "K2"]) 1 "A" 0) 1 "1_0") 1)
        "1_0").user_requests = [] ∧
    (resumeCancelledAtHttp
        (cmd_cancel (fireUpToHttp (handle_message (initState ["K1", "K2"]) 1 "A" 0) 1 "1_0") 1)
        "1_0").request_timers = [] := by
  refine ⟨by decide, by decide, by decide, by decide, by decide⟩

/-- C4 amended: once a dispatch has fully completed, the owner's store
entry is gone, and `/cancel` is then a harmless no-op: it changes no
core state, raises nothing, and only answers that there is nothing to
cancel.  (If the dispatch is still mid-flight, cancellation instead
interrupts it at its next cancellable await — see the
counterexample.) -/
theorem C4_amended_cancel_after_completion (st : BotState) (u : Nat)
    (h : bucketOf st u = []) :
    cmd_cancel st u = { st with sent := st.sent ++ [(u, noCancelReply)] } := by
  unfold cmd_cancel
  rw [if_pos (by simpa [List.isEmpty_iff] using h)]

set_option maxRecDepth 16384 in
theorem C4_amended_cancel_after_completion_witness :
    cmd_cancel
        (process_request_fire (handle_message (initState ["K1"]) 1 "A" 0) 1 "1_0"
          (ApiOutcome.ok "R")) 1
      = { process_request_fire (handle_message (initState ["K1"]) 1 "A" 0) 1 "1_0"
            (ApiOutcome.ok "R") with
          sent := (process_request_fire (handle_message (initState ["K1"]) 1 "A" 0) 1 "1_0"
            (ApiOutcome.ok "R")).sent ++ [(1, noCancelReply)] } :=
  C4_amended_cancel_after_completion
    (process_request_fire (handle_message (initState ["K1"]) 1 "A" 0) 1 "1_0"
      (ApiOutcome.ok "R")) 1 (by decide)

/-! ## C3: round-robin rotation -/

theorem get_next_api_key_spec (keys : List String) (hne : keys ≠ []) (idx : Nat) :
    get_next_api_key keys idx = .ok (keys.getD idx "", (idx + 1) % keys.length) := by
  unfold get_next_api_key
  rw [if_neg (by simpa [List.isEmpty_iff] using hne)]

theorem rotateOutputs_spec (keys : List String) (hne : keys ≠ []) :
    ∀ (n idx : Nat), idx < keys.length →
      rotateOutputs keys idx n
        = (List.range n).map (fun j => keys.getD ((idx + j) % keys.length) "") := by
  intro n
  induction n with
  | zero => intro idx _; rfl
  | succ m ih =>
    intro idx h
    rw [rotateOutputs, get_next_api_key_spec keys hne, List.range_succ_eq_map]
    simp only [List.map_cons, List.map_map]
    congr 1
    case _ =>
      rw [Nat.add_zero, Nat.mod_eq_of_lt h]
    case _ =>
      rw [ih ((idx + 1) % keys.length)
        (Nat.mod_lt _ (List.length_pos.mpr hne))]
      apply List.map_congr_left
      intro j _
      show keys.getD (((idx + 1) % keys.length + j) % keys.length) ""
          = keys.getD ((idx + Nat.succ j) % keys.length) ""
      have harg : idx + 1 + j = idx + Nat.succ j := by omega
      rw [Nat.mod_add_mod, harg]

theorem count_residues (K i : Nat) (hK : 0 < K) (hi : i < K) :
    ∀ N, ((List.range N).filter (fun j => decide (j % K = i))).length
      = N / K + if i < N % K then 1 else 0 := by
  intro N
  induction N with
  | zero => simp
  | succ M ih =>
    rw [List.range_succ, List.filter_append, List.length_append, ih]
    have hmlt : M % K < K := Nat.mod_lt _ hK
    have hfilter : (List.filter (fun j => decide (j % K = i)) [M]).length
        = if M % K = i then 1 else 0 := by
      by_cases he : M % K = i <;> simp [he]
    rw [hfilter]
    by_cases hM : M % K = K - 1
    · have hmul : K * (M / K + 1) = K * (M / K) + K := Nat.mul_succ K (M / K)
      have hd := Nat.div_add_mod M K
      have hdvd : K ∣ M + 1 := ⟨M / K + 1, by omega⟩
      have h1 : (M + 1) / K = M / K + 1 := by
        rw [Nat.succ_div, if_pos hdvd]
      have h2 : (M + 1) % K = 0 := Nat.mod_eq_zero_of_dvd hdvd
      rw [h1, h2]
      by_cases he : M % K = i
      · rw [if_pos he, if_neg (show ¬ i < M % K by omega), if_neg (show ¬ i < 0 by omega)]
      · rw [if_neg he, if_pos (show i < M % K by omega), if_neg (show ¬ i < 0 by omega)]
    · have hK2 : 1 < K := by omega
      have h2 : (M + 1) % K = M % K + 1 := by
        rw [Nat.add_mod, Nat.mod_eq_of_lt hK2,
          Nat.mod_eq_of_lt (show M % K + 1 < K by omega)]
      have hdvd : ¬ K ∣ M + 1 := fun hdv => by
        have := Nat.mod_eq_zero_of_dvd hdv
        omega
      have h1 : (M + 1) / K = M / K := by
        rw [Nat.succ_div, if_neg hdvd]
        omega
      rw [h1, h2]
      by_cases he : M % K = i
      · rw [if_pos he, if_neg (show ¬ i < M % K by omega), if_pos (show i < M % K + 1 by omega)]
      · rw [if_neg he]
        by_cases hlt : i < M % K
        · rw [if_pos hlt, if_pos (show i < M % K + 1 by omega)]
        · rw [if_neg hlt, if_neg (show ¬ i < M % K + 1 by omega)]

/-- C3: starting from cursor 0, `n` successive rotator calls hand out
the pool entry at position `j % K` on the `j`-th call; each residue
class `i < K` (hence each pool position) is used exactly
`n / K + 1` times for `i < n % K` and `n / K` times otherwise, in pool
order, cyclically, independent of which owner's dispatch made the
call; and a single call returns `pool[cursor]` and advances the cursor
to `(cursor + 1) % K`. -/
theorem C3_round_robin (keys : List String) (hne : keys ≠ []) (n : Nat) :
    rotateOutputs keys 0 n
        = (List.range n).map (fun j => keys.getD (j % keys.length) "") ∧
    (∀ i, i < keys.length →
      ((List.range n).filter (fun j => decide (j % keys.length = i))).length
        = n / keys.length + if i < n % keys.length then 1 else 0) ∧
    (∀ idx, get_next_api_key keys idx
        = .ok (keys.getD idx "", (idx + 1) % keys.length)) := by
  refine ⟨?_, fun i hi => count_residues keys.length i (List.length_pos.mpr hne) hi n,
    fun idx => get_next_api_key_spec keys hne idx⟩
  have := rotateOutputs_spec keys hne n 0 (List.length_pos.mpr hne)
  simpa using this

theorem C3_round_robin_witness :
    (rotateOutputs ["K1", "K2"] 0 5
        = (List.range 5).map (fun j => ["K1", "K2"].getD (j % (["K1", "K2"] : List String).length) "")) ∧
    (∀ i, i < (["K1", "K2"] : List String).length →
      ((List.range 5).filter (fun j => decide (j % (["K1", "K2"] : List String).length = i))).length
        = 5 / (["K1", "K2"] : List String).length
          + if i < 5 % (["K1", "K2"] : List String).length then 1 else 0) ∧
    (∀ idx, get_next_api_key ["K1", "K2"] idx
        = .ok ((["K1", "K2"] : List String).getD idx "",
            (idx + 1) % (["K1", "K2"] : List String).length)) :=
  C3_round_robin ["K1", "K2"] (by decide) 5

/-! ## Unfolding equations for the dict operations -/

section AssocEqns

variable {κ β : Type} [DecidableEq κ]

@[simp] theorem assocSet_nil (k : κ) (v : β) : assocSet [] k v = [(k, v)] := rfl

theorem assocSet_cons (kv : κ × β) (l : List (κ × β)) (k : κ) (v : β) :
    assocSet (kv :: l) k v = if kv.1 = k then (k, v) :: l else kv :: assocSet l k v := rfl

@[simp] theorem assocErase_nil (k : κ) : assocErase ([] : List (κ × β)) k = [] := rfl

theorem assocErase_cons (kv : κ × β) (l : List (κ × β)) (k : κ) :
    assocErase (kv :: l) k = if kv.1 = k then l else kv :: assocErase l k := rfl

@[simp] theorem assocModify_nil (k : κ) (f : β → β) :
    assocModify ([] : List (κ × β)) k f = [] := rfl

theorem assocModify_cons (kv : κ × β) (l : List (κ × β)) (k : κ) (f : β → β) :
    assocModify (kv :: l) k f
      = if kv.1 = k then (kv.1, f kv.2) :: l else kv :: assocModify l k f := rfl

end AssocEqns

/-! ## The two canonical event computations: dispatch and merge -/

/-- A fire for an id that is still stored with a non-empty prompt runs
the full dispatch: processing notice, one upstream call on the next
credential, formatted response, entry removal, timer removal. -/
theorem fire_dispatch (st : BotState) (u : Nat) (rid prompt : String) (created : Nat)
    (o : ApiOutcome) (b : List (String × ReqData))
    (hb : assocGet? st.user_requests u = some b)
    (hentry : assocGet? b rid = some { prompt := prompt, created := created })
    (hprompt : prompt ≠ "") (hkeys : st.gemini_api_keys ≠ []) :
    process_request_fire st u rid o =
      { st with
        user_requests :=
          if (assocErase b rid).isEmpty then assocErase st.user_requests u
          else assocSet st.user_requests u (assocErase b rid),
        request_timers := st.request_timers.erase rid,
        current_key_index := (st.current_key_index + 1) % st.gemini_api_keys.length,
        sent := st.sent ++ [(u, processingText rid),
          (u, formatResponse rid (apiResponseText o))],
        api_calls := st.api_calls
          ++ [(prompt, rid, st.gemini_api_keys.getD st.current_key_index "")] } := by
  unfold process_request_fire call_gemini_api
  simp only [hb, hentry, if_neg hprompt, get_next_api_key_spec st.gemini_api_keys hkeys]
  by_cases he : (assocErase b rid).isEmpty
  · rw [if_pos he, if_pos he]
    simp [List.append_assoc]
  · rw [if_neg he, if_neg he]
    simp [List.append_assoc]

/-- `handle_message` on the canonical single-pending state with a
later arrival instant: the old id and its timer are retired, the texts
are combined with the separator, and the new id with its timer are
installed — all within the single merge segment. -/
theorem merge_step (st : BotState) (u oldT newT : Nat) (oldD : ReqData) (text : String)
    (hstore : st.user_requests = [(u, [(generate_request_id u oldT, oldD)])])
    (htimers : st.request_timers = [generate_request_id u oldT])
    (hblank : ¬ pyStrip text = "") (hne : newT ≠ oldT) :
    handle_message st u text newT = { st with
      user_requests := [(u, [(generate_request_id u newT,
        { prompt := oldD.prompt ++ separatorMarker ++ text, created := newT })])],
      request_timers := [generate_request_id u newT],
      sent := st.sent ++ [(u, confirmationText (generate_request_id u newT))] } := by
  have hid : generate_request_id u newT ≠ generate_request_id u oldT := fun h =>
    hne (generate_request_id_inj h).2
  have hpref : pyStartswith (generate_request_id u oldT) (ownerTag u) = true :=
    (pyStartswith_ownerTag u u oldT).mpr rfl
  unfold handle_message
  rw [if_neg hblank]
  have hA : handleMessageStore st u text newT = { st with
      user_requests := [(u, [(generate_request_id u oldT, oldD),
        (generate_request_id u newT, { prompt := text, created := newT })])],
      sent := st.sent ++ [(u, confirmationText (generate_request_id u newT))] } := by
    unfold handleMessageStore
    simp [bucketOf, hstore, assocSet_cons, assocSet_nil, Ne.symm hid]
  rw [hA]
  unfold handleMessageMerge
  simp [htimers, hpref, bucketOf, Ne.symm hid, assocGet?_cons, assocSet_cons,
    assocModify_cons, assocErase_cons, timerInstall, List.erase_cons_head]

/-- The first message of an owner starting from a state with no stored
requests and no timers: a fresh entry and timer are installed, nothing
is merged. -/
theorem first_message (st : BotState) (u : Nat) (text : String) (now : Nat)
    (hstore : st.user_requests = [])
    (htimers : st.request_timers = [])
    (hblank : ¬ pyStrip text = "") :
    handle_message st u text now = { st with
      user_requests := [(u, [(generate_request_id u now,
        { prompt := text, created := now })])],
      request_timers := [generate_request_id u now],
      sent := st.sent ++ [(u, confirmationText (generate_request_id u now))] } := by
  unfold handle_message
  rw [if_neg hblank]
  have hA : handleMessageStore st u text now = { st with
      user_requests := [(u, [(generate_request_id u now,
        { prompt := text, created := now })])],
      sent := st.sent ++ [(u, confirmationText (generate_request_id u now))] } := by
    unfold handleMessageStore
    simp only [bucketOf, hstore, assocGet?_nil, Option.getD_none, assocSet_nil]
  rw [hA]
  unfold handleMessageMerge
  simp [htimers, timerInstall]

/-! ## C8 -/

set_option maxRecDepth 16384 in
/-- C8 counterexample: `int(datetime.now().timestamp())` has second
granularity, so two request creations by owner 1 at the same instant
generate the **same** id "1_5".  The merge triggered by the second
message is therefore not fresh: it cancels timer "1_5", merges the
entry into itself and then pops it as the "old" id — afterwards the
owner has **no** stored request at all while the re-installed timer
still carries the retired id. -/
theorem C8_counterexample :
    generate_request_id 1 5 = "1_5" ∧
    (handle_message (initState ["K1"]) 1 "A" 5).request_timers = ["1_5"] ∧
    bucketOf (handle_message (handle_message (initState ["K1"]) 1 "A" 5) 1 "B" 5) 1 = [] ∧
    (handle_message (handle_message (initState ["K1"]) 1 "A" 5) 1 "B" 5).request_timers
      = ["1_5"] := by
  refine ⟨by decide, by decide, by decide, by decide⟩

/-- C8 amended: request ids are injective in the pair
(owner, creation instant) — any two creations with different owners or
different instants get different ids; and whenever a merge's arrival
instant differs from the pending request's creation instant, the merge
retires the old id and its timer and installs a fresh (distinct) id
whose text combines the old and new texts.  (At equal instants the
regenerated id coincides with the retired one and the merge loses the
request — see the counterexample.) -/
theorem C8_amended :
    (∀ u t v s : Nat, generate_request_id u t = generate_request_id v s → u = v ∧ t = s) ∧
    (∀ (st : BotState) (u oldT newT : Nat) (oldD : ReqData) (text : String),
      st.user_requests = [(u, [(generate_request_id u oldT, oldD)])] →
      st.request_timers = [generate_request_id u oldT] →
      ¬ pyStrip text = "" → newT ≠ oldT →
      generate_request_id u newT ≠ generate_request_id u oldT ∧
      handle_message st u text newT = { st with
        user_requests := [(u, [(generate_request_id u newT,
          { prompt := oldD.prompt ++ separatorMarker ++ text, created := newT })])],
        request_timers := [generate_request_id u newT],
        sent := st.sent ++ [(u, confirmationText (generate_request_id u newT))] }) := by
  refine ⟨fun u t v s h => generate_request_id_inj h, ?_⟩
  intro st u oldT newT oldD text hstore htimers hblank hne
  exact ⟨fun h => hne (generate_request_id_inj h).2,
    merge_step st u oldT newT oldD text hstore htimers hblank hne⟩

set_option maxRecDepth 16384 in
theorem C8_amended_witness :
    generate_request_id 1 10 ≠ generate_request_id 1 0 ∧
    handle_message (handle_message (initState ["K1"]) 1 "A" 0) 1 "B" 10
      = { handle_message (initState ["K1"]) 1 "A" 0 with
          user_requests := [(1, [(generate_request_id 1 10,
            { prompt := ("A" : String) ++ separatorMarker ++ "B", created := 10 })])],
          request_timers := [generate_request_id 1 10],
          sent := (handle_message (initState ["K1"]) 1 "A" 0).sent
            ++ [(1, confirmationText (generate_request_id 1 10))] } :=
  C8_amended.2 (handle_message (initState ["K1"]) 1 "A" 0) 1 0 10
    { prompt := "A", created := 0 } "B" (by decide) (by decide) (by decide) (by decide)

/-! ## C5 -/

/-- C5: when the upstream call fails (timeout, network error,
non-success status or malformed response), the owner receives exactly
one failure notice — the single formatted response message, which
embeds the correct request id and whose text starts with the failure
marker — the store no longer contains the request id afterwards, the
rotator cursor has advanced by one (the credential was consumed before
the failure), and exactly one upstream attempt was made (no retry). -/
theorem C5_failure_path (st : BotState) (u : Nat) (rid prompt : String) (created : Nat)
    (o : ApiOutcome) (b : List (String × ReqData))
    (hb : assocGet? st.user_requests u = some b)
    (hentry : assocGet? b rid = some { prompt := prompt, created := created })
    (hprompt : prompt ≠ "") (hkeys : st.gemini_api_keys ≠ [])
    (hnodupStore : (st.user_requests.map (·.1)).Nodup)
    (hnodupBucket : (b.map (·.1)).Nodup)
    (hfail : o.isFailure = true) :
    (process_request_fire st u rid o).sent
        = st.sent ++ [(u, processingText rid), (u, formatResponse rid (apiResponseText o))] ∧
    assocGet? (bucketOf (process_request_fire st u rid o) u) rid = none ∧
    (process_request_fire st u rid o).current_key_index
        = (st.current_key_index + 1) % st.gemini_api_keys.length ∧
    (process_request_fire st u rid o).api_calls
        = st.api_calls ++ [(prompt, rid, st.gemini_api_keys.getD st.current_key_index "")] ∧
    (∃ pre post, formatResponse rid (apiResponseText o) = pre ++ (rid ++ post)) ∧
    (apiResponseText o).data.head? = some '❌' := by
  have hfd := fire_dispatch st u rid prompt created o b hb hentry hprompt hkeys
  rw [hfd]
  refine ⟨rfl, ?_, rfl, rfl, ?_, ?_⟩
  · by_cases he : assocErase b rid = []
    · simp [bucketOf, he, assocGet?_erase_self _ _ hnodupStore]
    · simp [bucketOf, he, assocGet?_set_self,
        assocGet?_erase_self _ _ hnodupBucket]
  · exact ⟨"✨【Ответ на запрос ",
      "】✨\n\n" ++ apiResponseText o ++ "\n\n📌 Конец ответа",
      by simp [formatResponse, String.append_assoc]⟩
  · cases o with
    | ok t => simp [ApiOutcome.isFailure] at hfail
    | malformed => rfl
    | httpError s =>
      show (("❌ Ошибка API: " : String) ++ Nat.repr s).data.head? = some '❌'
      rw [String.data_append]
      rfl
    | networkError => rfl
    | timeout => rfl

set_option maxRecDepth 16384 in
theorem C5_failure_path_witness :
    (process_request_fire (handle_message (initState ["K1", "K2"]) 1 "A" 0) 1 "1_0"
        ApiOutcome.timeout).sent
      = (handle_message (initState ["K1", "K2"]) 1 "A" 0).sent
        ++ [(1, processingText "1_0"),
            (1, formatResponse "1_0" (apiResponseText ApiOutcome.timeout))] ∧
    assocGet? (bucketOf (process_request_fire (handle_message (initState ["K1", "K2"]) 1 "A" 0)
        1 "1_0" ApiOutcome.timeout) 1) "1_0" = none ∧
    (process_request_fire (handle_message (initState ["K1", "K2"]) 1 "A" 0) 1 "1_0"
        ApiOutcome.timeout).current_key_index
      = ((handle_message (initState ["K1", "K2"]) 1 "A" 0).current_key_index + 1)
          % (handle_message (initState ["K1", "K2"]) 1 "A" 0).gemini_api_keys.length ∧
    (process_request_fire (handle_message (initState ["K1", "K2"]) 1 "A" 0) 1 "1_0"
        ApiOutcome.timeout).api_calls
      = (handle_message (initState ["K1", "K2"]) 1 "A" 0).api_calls
        ++ [("A", "1_0",
            (handle_message (initState ["K1", "K2"]) 1 "A" 0).gemini_api_keys.getD
              (handle_message (initState ["K1", "K2"]) 1 "A" 0).current_key_index "")] ∧
    (∃ pre post, formatResponse "1_0" (apiResponseText ApiOutcome.timeout)
        = pre ++ ("1_0" ++ post)) ∧
    (apiResponseText ApiOutcome.timeout).data.head? = some '❌' :=
  C5_failure_path (handle_message (initState ["K1", "K2"]) 1 "A" 0) 1 "1_0" "A" 0
    ApiOutcome.timeout [("1_0", { prompt := "A", created := 0 })]
    (by decide) (by decide) (by decide) (by decide) (by decide) (by decide) rfl

/-! ## C1 -/

theorem foldl_merge_prompt (msgs : List (String × Nat)) (a : String) :
    msgs.foldl (fun p m => p ++ separatorMarker ++ m.1) a
      = String.intercalate separatorMarker (a :: msgs.map (·.1)) := by
  rw [intercalate_cons_eq_foldl, List.foldl_map]

theorem foldl_merge_prompt_ne_empty (msgs : List (String × Nat)) (a : String) (ha : a ≠ "") :
    msgs.foldl (fun p m => p ++ separatorMarker ++ m.1) a ≠ "" := by
  induction msgs generalizing a with
  | nil => exact ha
  | cons m ms ih =>
    exact ih _ (append_ne_empty_left _ _ (append_ne_empty_left _ _ ha))

theorem ne_empty_of_pyStrip_ne (s : String) (h : ¬ pyStrip s = "") : s ≠ "" := by
  intro hs
  subst hs
  exact h rfl

/-- Processing a run of further messages from the canonical
single-pending state, each arriving strictly later than the previous
one: every step is a merge, and afterwards the owner holds exactly one
request whose id carries the last arrival instant and whose text is
the separator-joined accumulation; no upstream call happens and the
rotator is untouched. -/
theorem C1_run (u : Nat) (msgs : List (String × Nat)) :
    ∀ (st : BotState) (prevT : Nat) (prevD : ReqData),
      st.user_requests = [(u, [(generate_request_id u prevT, prevD)])] →
      st.request_timers = [generate_request_id u prevT] →
      prevD.created = prevT →
      List.Chain (fun a b => a < b) prevT (msgs.map (·.2)) →
      (∀ m ∈ msgs, ¬ pyStrip m.1 = "") →
      (msgs.foldl (fun s m => handle_message s u m.1 m.2) st).user_requests
          = [(u, [(generate_request_id u ((msgs.map (·.2)).getLastD prevT),
              { prompt := msgs.foldl (fun p m => p ++ separatorMarker ++ m.1) prevD.prompt,
                created := (msgs.map (·.2)).getLastD prevT })])] ∧
      (msgs.foldl (fun s m => handle_message s u m.1 m.2) st).request_timers
          = [generate_request_id u ((msgs.map (·.2)).getLastD prevT)] ∧
      (msgs.foldl (fun s m => handle_message s u m.1 m.2) st).api_calls = st.api_calls ∧
      (msgs.foldl (fun s m => handle_message s u m.1 m.2) st).current_key_index
          = st.current_key_index ∧
      (msgs.foldl (fun s m => handle_message s u m.1 m.2) st).gemini_api_keys
          = st.gemini_api_keys := by
  induction msgs with
  | nil =>
    intro st prevT prevD hstore htimers hcreated _ _
    refine ⟨?_, htimers, rfl, rfl, rfl⟩
    rcases prevD with ⟨p, c⟩
    obtain rfl : c = prevT := hcreated
    simpa using hstore
  | cons m ms ih =>
    intro st prevT prevD hstore htimers hcreated hchain hblank
    rw [List.map_cons, List.chain_cons] at hchain
    have hne : m.2 ≠ prevT := Nat.ne_of_gt hchain.1
    have hstep := merge_step st u prevT m.2 prevD m.1 hstore htimers
      (hblank m (List.mem_cons_self m ms)) hne
    have := ih { st with
        user_requests := [(u, [(generate_request_id u m.2,
          { prompt := prevD.prompt ++ separatorMarker ++ m.1, created := m.2 })])],
        request_timers := [generate_request_id u m.2],
        sent := st.sent ++ [(u, confirmationText (generate_request_id u m.2))] }
      m.2 { prompt := prevD.prompt ++ separatorMarker ++ m.1, created := m.2 }
      rfl rfl rfl hchain.2 (fun x hx => hblank x (List.mem_cons_of_mem m hx))
    simp only [List.foldl_cons]
    rw [hstep, List.map_cons, List.getLastD_cons]
    exact this

set_option maxRecDepth 16384 in
/-- C1 counterexample: two messages of owner 1 in the same second
satisfy the claim's hypothesis (the second arrives 0 < 60 time units
after the first), but the regenerated id collides with the pending one
(second-granular timestamps): the merge deletes the entry, the timer
fires on an empty store, and **zero** dispatches occur — the `sent`
log ends with only the two confirmations, no processing notice and no
response. -/
theorem C1_counterexample :
    (process_request_fire (handle_message (handle_message (initState ["K1"]) 1 "A" 5) 1 "B" 5)
        1 (generate_request_id 1 5) (ApiOutcome.ok "X")).api_calls = [] ∧
    (process_request_fire (handle_message (handle_message (initState ["K1"]) 1 "A" 5) 1 "B" 5)
        1 (generate_request_id 1 5) (ApiOutcome.ok "X")).sent
      = [(1, confirmationText "1_5"), (1, confirmationText "1_5")] := by
  refine ⟨by decide, by decide⟩

/-- C1 amended: for every sequence of non-blank messages of one owner
arriving at **strictly increasing** instants, each within the
60-second quiet period of the previous one, the aggregation makes no
upstream call, leaves exactly the last id's timer pending, and the one
fire of that timer dispatches exactly once, with text equal to the
ordered concatenation of all message texts joined by the separator
marker, consuming exactly one credential. -/
theorem C1_amended (keys : List String) (hkeys : keys ≠ []) (u : Nat)
    (first : String × Nat) (rest : List (String × Nat))
    (hchain : List.Chain (fun a b : String × Nat => a.2 < b.2 ∧ b.2 < a.2 + 60) first rest)
    (hblank : ∀ m ∈ first :: rest, ¬ pyStrip m.1 = "")
    (resp : String) :
    ((first :: rest).foldl (fun s m => handle_message s u m.1 m.2) (initState keys)).api_calls
        = [] ∧
    ((first :: rest).foldl (fun s m => handle_message s u m.1 m.2)
        (initState keys)).request_timers
      = [generate_request_id u (((first :: rest).map (·.2)).getLastD 0)] ∧
    (process_request_fire
        ((first :: rest).foldl (fun s m => handle_message s u m.1 m.2) (initState keys))
        u (generate_request_id u (((first :: rest).map (·.2)).getLastD 0))
        (ApiOutcome.ok resp)).api_calls
      = [(String.intercalate separatorMarker ((first :: rest).map (·.1)),
          generate_request_id u (((first :: rest).map (·.2)).getLastD 0),
          keys.getD 0 "")] ∧
    (process_request_fire
        ((first :: rest).foldl (fun s m => handle_message s u m.1 m.2) (initState keys))
        u (generate_request_id u (((first :: rest).map (·.2)).getLastD 0))
        (ApiOutcome.ok resp)).request_timers = [] := by
  have hblank0 : ¬ pyStrip first.1 = "" := hblank first (List.mem_cons_self first rest)
  have hfm := first_message (initState keys) u first.1 first.2 rfl rfl hblank0
  have hchain2 : List.Chain (fun a b => a < b) first.2 (rest.map (·.2)) := by
    rw [List.chain_map]
    exact hchain.imp (fun a b h => h.1)
  have hrun := C1_run u rest (handle_message (initState keys) u first.1 first.2)
    first.2 { prompt := first.1, created := first.2 }
    (by rw [hfm]) (by rw [hfm]) rfl hchain2
    (fun x hx => hblank x (List.mem_cons_of_mem first hx))
  obtain ⟨hur, ht, hapi, hidx, hk⟩ := hrun
  have hapi0 : (handle_message (initState keys) u first.1 first.2).api_calls = [] := by
    rw [hfm]
    simp [initState]
  have hidx0 : (handle_message (initState keys) u first.1 first.2).current_key_index = 0 := by
    rw [hfm]
    simp [initState]
  have hk0 : (handle_message (initState keys) u first.1 first.2).gemini_api_keys = keys := by
    rw [hfm]
    simp [initState]
  have hlast : ((first :: rest).map (·.2)).getLastD 0
      = (rest.map (·.2)).getLastD first.2 := by
    rw [List.map_cons, List.getLastD_cons]
  have hjoined : rest.foldl (fun p m => p ++ separatorMarker ++ m.1) first.1
      = String.intercalate separatorMarker ((first :: rest).map (·.1)) := by
    rw [List.map_cons, foldl_merge_prompt]
  have hfd := fire_dispatch
    (rest.foldl (fun s m => handle_message s u m.1 m.2)
      (handle_message (initState keys) u first.1 first.2))
    u (generate_request_id u ((rest.map (·.2)).getLastD first.2))
    (rest.foldl (fun p m => p ++ separatorMarker ++ m.1) first.1)
    ((rest.map (·.2)).getLastD first.2) (ApiOutcome.ok resp)
    [(generate_request_id u ((rest.map (·.2)).getLastD first.2),
      { prompt := rest.foldl (fun p m => p ++ separatorMarker ++ m.1) first.1,
        created := (rest.map (·.2)).getLastD first.2 })]
    (by rw [hur]; simp)
    (by simp)
    (foldl_merge_prompt_ne_empty rest first.1 (ne_empty_of_pyStrip_ne first.1 hblank0))
    (by rw [hk, hk0]; exact hkeys)
  rw [List.foldl_cons]
  refine ⟨by rw [hapi, hapi0], by rw [ht, hlast], ?_, ?_⟩
  · rw [hlast, hfd]
    simp only [hapi, hidx, hk, hapi0, hidx0, hk0]
    rw [hjoined]
    simp
  · rw [hlast, hfd]
    simp only [ht]
    rw [List.erase_cons_head]

set_option maxRecDepth 16384 in
theorem C1_amended_witness :
    (([(("A" : String), (0 : Nat)), ("B", 10)]).foldl
        (fun s m => handle_message s 1 m.1 m.2) (initState ["K1", "K2"])).api_calls = [] ∧
    (([(("A" : String), (0 : Nat)), ("B", 10)]).foldl
        (fun s m => handle_message s 1 m.1 m.2) (initState ["K1", "K2"])).request_timers
      = [generate_request_id 1 ((([(("A" : String), (0 : Nat)), ("B", 10)]).map (·.2)).getLastD 0)] ∧
    (process_request_fire
        (([(("A" : String), (0 : Nat)), ("B", 10)]).foldl
          (fun s m => handle_message s 1 m.1 m.2) (initState ["K1", "K2"]))
        1 (generate_request_id 1 ((([(("A" : String), (0 : Nat)), ("B", 10)]).map (·.2)).getLastD 0))
        (ApiOutcome.ok "R")).api_calls
      = [(String.intercalate separatorMarker (([(("A" : String), (0 : Nat)), ("B", 10)]).map (·.1)),
          generate_request_id 1 ((([(("A" : String), (0 : Nat)), ("B", 10)]).map (·.2)).getLastD 0),
          (["K1", "K2"] : List String).getD 0 "")] ∧
    (process_request_fire
        (([(("A" : String), (0 : Nat)), ("B", 10)]).foldl
          (fun s m => handle_message s 1 m.1 m.2) (initState ["K1", "K2"]))
        1 (generate_request_id 1 ((([(("A" : String), (0 : Nat)), ("B", 10)]).map (·.2)).getLastD 0))
        (ApiOutcome.ok "R")).request_timers = [] :=
  C1_amended ["K1", "K2"] (by decide) 1 ("A", 0) [("B", 10)]
    (List.Chain.cons (by decide) List.Chain.nil) (by decide) "R"

/-! ## C2: the per-owner invariant over whole event turns -/

theorem pyStartswith_genId_self (u t : Nat) :
    pyStartswith (generate_request_id u t) (ownerTag u) = true :=
  (pyStartswith_ownerTag u u t).mpr rfl

theorem pyStartswith_genId_ne {u v : Nat} (t : Nat) (h : u ≠ v) :
    pyStartswith (generate_request_id v t) (ownerTag u) = false := by
  rw [Bool.eq_false_iff]
  intro hc
  exact h ((pyStartswith_ownerTag u v t).mp hc)

theorem assocSet_assocSet {κ β : Type} [DecidableEq κ] (l : List (κ × β)) (k : κ) (v w : β) :
    assocSet (assocSet l k v) k w = assocSet l k w := by
  induction l with
  | nil => simp [assocSet]
  | cons kv rest ih =>
    rw [assocSet_cons]
    by_cases hk : kv.1 = k
    · rw [if_pos hk, assocSet_cons, assocSet_cons, if_pos hk]
      simp
    · rw [if_neg hk, assocSet_cons, assocSet_cons, if_neg hk, if_neg hk, ih]

theorem filter_eq_singleton_of {α : Type} {p : α → Bool} {l : List α}
    (h : (l.filter p).length ≤ 1) {x : α} (hx : x ∈ l) (hpx : p x = true) :
    l.filter p = [x] := by
  have hx' := List.mem_filter.mpr ⟨hx, hpx⟩
  rcases hfl : l.filter p with _ | ⟨z, zs⟩
  · rw [hfl] at hx'
    simp at hx'
  · rw [hfl] at hx' h
    have hzs : zs = [] := by
      simp only [List.length_cons] at h
      exact List.length_eq_zero.mp (by omega)
    subst hzs
    simp only [List.mem_singleton] at hx'
    rw [hx']

theorem eq_of_filter_len_le_one {α : Type} {p : α → Bool} {l : List α}
    (h : (l.filter p).length ≤ 1) {x y : α} (hx : x ∈ l) (hpx : p x = true)
    (hy : y ∈ l) (hpy : p y = true) : x = y := by
  have hfx := filter_eq_singleton_of h hx hpx
  have hy' := List.mem_filter.mpr ⟨hy, hpy⟩
  rw [hfx] at hy'
  simp only [List.mem_singleton] at hy'
  rw [hy']

theorem not_mem_erase_self_of_filter_le_one {l : List String} {x : String} {p : String → Bool}
    (hp : p x = true) (h : (l.filter p).length ≤ 1) : x ∉ l.erase x := by
  intro hc
  have h2 : 2 ≤ l.count x := by
    have hc1 : 0 < (l.erase x).count x := List.count_pos_iff.mpr hc
    have := List.count_erase_self x l
    omega
  have h3 : (l.filter p).count x = l.count x := List.count_filter hp
  have h4 : (l.filter p).count x ≤ (l.filter p).length := List.count_le_length x _
  omega

theorem foldl_erase_sublist {β : Type} (b : List (String × β)) (ts : List String) :
    List.Sublist (b.foldl (fun ts kv => ts.erase kv.1) ts) ts := by
  induction b generalizing ts with
  | nil => exact List.Sublist.refl ts
  | cons kv rest ih =>
    rw [List.foldl_cons]
    exact (ih (ts.erase kv.1)).trans (List.erase_sublist kv.1 ts)

theorem mem_foldl_erase {β : Type} (b : List (String × β)) (ts : List String) (x : String)
    (hx : x ∈ ts) (hne : ∀ kv ∈ b, kv.1 ≠ x) :
    x ∈ b.foldl (fun ts kv => ts.erase kv.1) ts := by
  induction b generalizing ts with
  | nil => exact hx
  | cons kv rest ih =>
    rw [List.foldl_cons]
    refine ih (ts.erase kv.1) ?_ (fun kv' hkv' => hne kv' (List.mem_cons_of_mem kv hkv'))
    exact (List.mem_erase_of_ne
      (Ne.symm (hne kv (List.mem_cons_self kv rest)))).mpr hx

theorem WFState_congr {st st' : BotState}
    (hur : st'.user_requests = st.user_requests)
    (ht : st'.request_timers = st.request_timers) (h : WFState st) : WFState st' := by
  unfold WFState bucketOf at h ⊢
  rw [hur, ht]
  exact h

theorem WFState_initState (keys : List String) : WFState (initState keys) := by
  refine ⟨fun u => ?_, fun u kv hkv => ?_, fun u => ?_, fun r hr => ?_, ?_⟩
  · simp [bucketOf, initState]
  · simp [bucketOf, initState] at hkv
  · simp [initState]
  · simp [initState] at hr
  · simp [initState]

theorem WF_cmd_status (st : BotState) (u : Nat) (h : WFState st) :
    WFState (cmd_status st u) := by
  refine WFState_congr ?_ ?_ h <;> (simp only [cmd_status]; split <;> rfl)

theorem WF_cmd_cancel (st : BotState) (u0 : Nat) (h : WFState st) :
    WFState (cmd_cancel st u0) := by
  simp only [cmd_cancel]
  by_cases hb : (bucketOf st u0).isEmpty
  · rw [if_pos hb]
    exact WFState_congr rfl rfl h
  · rw [if_neg hb]
    obtain ⟨h1, h2, h3, h4, h5⟩ := h
    refine ⟨fun u => ?_, fun u kv hkv => ?_, fun u => ?_, fun r hr => ?_, ?_⟩
    · by_cases hu : u = u0
      · subst hu
        simp [bucketOf, assocGet?_erase_self _ _ h5]
      · simpa [bucketOf, assocGet?_erase_ne _ _ _ hu] using h1 u
    · by_cases hu : u = u0
      · subst hu
        simp [bucketOf, assocGet?_erase_self _ _ h5] at hkv
      · simp only [bucketOf, assocGet?_erase_ne _ _ _ hu] at hkv
        obtain ⟨⟨t, ht⟩, hmem⟩ := h2 u kv hkv
        refine ⟨⟨t, ht⟩, ?_⟩
        refine mem_foldl_erase _ _ _ hmem ?_
        intro kv' hkv'
        obtain ⟨⟨t', ht'⟩, _⟩ := h2 u0 kv' hkv'
        rw [ht, ht']
        intro hc
        exact hu ((generate_request_id_inj hc.symm).1)
    · have hs := (foldl_erase_sublist (bucketOf st u0) st.request_timers).filter
        (fun r => pyStartswith r (ownerTag u))
      exact le_trans hs.length_le (h3 u)
    · exact h4 r ((foldl_erase_sublist (bucketOf st u0) st.request_timers).subset hr)
    · exact h5.sublist ((assocErase_sublist st.user_requests u0).map (·.1))

theorem process_request_fire_shape (st : BotState) (u : Nat) (rid : String) (o : ApiOutcome) :
    (process_request_fire st u rid o).request_timers = st.request_timers.erase rid ∧
    (process_request_fire st u rid o).user_requests
      = match assocGet? st.user_requests u with
        | none => st.user_requests
        | some b =>
          if (assocErase b rid).isEmpty then assocErase st.user_requests u
          else assocSet st.user_requests u (assocErase b rid) := by
  unfold process_request_fire
  cases hu : assocGet? st.user_requests u with
  | none => simp [hu]
  | some b =>
    cases hg : assocGet? b rid with
    | none =>
      simp only [hu, hg]
      split <;> exact ⟨rfl, rfl⟩
    | some data =>
      by_cases hp : data.prompt = ""
      · simp only [hu, hg, if_pos hp]
        split <;> exact ⟨rfl, rfl⟩
      · simp only [hu, hg, if_neg hp]
        split <;> exact ⟨rfl, rfl⟩

theorem WF_fire (st : BotState) (u0 t0 : Nat) (o : ApiOutcome) (h : WFState st) :
    WFState (process_request_fire st u0 (generate_request_id u0 t0) o) := by
  obtain ⟨h1, h2, h3, h4, h5⟩ := h
  obtain ⟨hts, hur⟩ := process_request_fire_shape st u0 (generate_request_id u0 t0) o
  have hcore2 : ∀ u, u ≠ u0 → ∀ kv ∈ bucketOf st u,
      (∃ t, kv.1 = generate_request_id u t) ∧
        kv.1 ∈ st.request_timers.erase (generate_request_id u0 t0) := by
    intro u hu kv hkv
    obtain ⟨⟨t, ht⟩, hmem⟩ := h2 u kv hkv
    refine ⟨⟨t, ht⟩, ?_⟩
    refine (List.mem_erase_of_ne ?_).mpr hmem
    rw [ht]
    intro hc
    exact hu (generate_request_id_inj hc).1
  have hfilter : ∀ u, ((st.request_timers.erase (generate_request_id u0 t0)).filter
      (fun r => pyStartswith r (ownerTag u))).length ≤ 1 :=
    fun u => le_trans ((List.erase_sublist _ _).filter _).length_le (h3 u)
  have hids : ∀ r ∈ st.request_timers.erase (generate_request_id u0 t0),
      ∃ v t, r = generate_request_id v t :=
    fun r hr => h4 r (List.mem_of_mem_erase hr)
  cases hu : assocGet? st.user_requests u0 with
  | none =>
    simp only [hu] at hur
    refine ⟨fun u => ?_, fun u kv hkv => ?_, fun u => by rw [hts]; exact hfilter u,
      fun r hr => hids r (hts ▸ hr), by rw [hur]; exact h5⟩
    · have : bucketOf (process_request_fire st u0 (generate_request_id u0 t0) o) u
          = bucketOf st u := by
        unfold bucketOf
        rw [hur]
      rw [this]
      exact h1 u
    · have hbeq : bucketOf (process_request_fire st u0 (generate_request_id u0 t0) o) u
          = bucketOf st u := by
        unfold bucketOf
        rw [hur]
      rw [hbeq] at hkv
      by_cases hu' : u = u0
      · subst hu'
        have : bucketOf st u = [] := by
          unfold bucketOf
          rw [hu]
          rfl
        rw [this] at hkv
        simp at hkv
      · rw [hts]
        exact hcore2 u hu' kv hkv
  | some b =>
    simp only [hu] at hur
    have hbu0 : bucketOf st u0 = b := by
      unfold bucketOf
      rw [hu]
      rfl
    by_cases he : (assocErase b (generate_request_id u0 t0)).isEmpty
    · rw [if_pos he] at hur
      refine ⟨fun u => ?_, fun u kv hkv => ?_, fun u => by rw [hts]; exact hfilter u,
        fun r hr => hids r (hts ▸ hr),
        by rw [hur]; exact h5.sublist ((assocErase_sublist st.user_requests u0).map (·.1))⟩
      · by_cases hu' : u = u0
        · subst hu'
          unfold bucketOf
          rw [hur, assocGet?_erase_self _ _ h5]
          simp
        · have : bucketOf (process_request_fire st u0 (generate_request_id u0 t0) o) u
              = bucketOf st u := by
            unfold bucketOf
            rw [hur, assocGet?_erase_ne _ _ _ hu']
          rw [this]
          exact h1 u
      · by_cases hu' : u = u0
        · subst hu'
          have : bucketOf (process_request_fire st u (generate_request_id u t0) o) u
              = [] := by
            unfold bucketOf
            rw [hur, assocGet?_erase_self _ _ h5]
            rfl
          rw [this] at hkv
          simp at hkv
        · have : bucketOf (process_request_fire st u0 (generate_request_id u0 t0) o) u
              = bucketOf st u := by
            unfold bucketOf
            rw [hur, assocGet?_erase_ne _ _ _ hu']
          rw [this] at hkv
          rw [hts]
          exact hcore2 u hu' kv hkv
    · rw [if_neg he] at hur
      have hb1 : b.length ≤ 1 := hbu0 ▸ h1 u0
      refine ⟨fun u => ?_, fun u kv hkv => ?_, fun u => by rw [hts]; exact hfilter u,
        fun r hr => hids r (hts ▸ hr),
        by rw [hur]; exact keys_assocSet_nodup h5⟩
      · by_cases hu' : u = u0
        · subst hu'
          have : bucketOf (process_request_fire st u (generate_request_id u t0) o) u
              = assocErase b (generate_request_id u t0) := by
            unfold bucketOf
            rw [hur, assocGet?_set_self]
            rfl
          rw [this]
          exact le_trans (length_assocErase_le _ _) hb1
        · have : bucketOf (process_request_fire st u0 (generate_request_id u0 t0) o) u
              = bucketOf st u := by
            unfold bucketOf
            rw [hur, assocGet?_set_ne _ _ _ _ hu']
          rw [this]
          exact h1 u
      · by_cases hu' : u = u0
        · subst hu'
          have hbeq : bucketOf (process_request_fire st u (generate_request_id u t0) o) u
              = assocErase b (generate_request_id u t0) := by
            unfold bucketOf
            rw [hur, assocGet?_set_self]
            rfl
          rw [hbeq] at hkv
          rcases hbb : b with _ | ⟨e, es⟩
          · rw [hbb] at hkv
            simp at hkv
          · have hes : es = [] := by
              rw [hbb] at hb1
              simp only [List.length_cons] at hb1
              exact List.length_eq_zero.mp (by omega)
            subst hes
            rw [hbb, assocErase_cons] at hkv
            by_cases hee : e.1 = generate_request_id u t0
            · rw [if_pos hee] at hkv
              simp at hkv
            · rw [if_neg hee] at hkv
              simp only [assocErase_nil, List.mem_singleton] at hkv
              subst hkv
              obtain ⟨⟨t, ht⟩, hmem⟩ := h2 u kv (by rw [hbu0, hbb]; exact List.mem_cons_self _ _)
              exact ⟨⟨t, ht⟩, by rw [hts]; exact (List.mem_erase_of_ne hee).mpr hmem⟩
        · have hbeq : bucketOf (process_request_fire st u0 (generate_request_id u0 t0) o) u
              = bucketOf st u := by
            unfold bucketOf
            rw [hur, assocGet?_set_ne _ _ _ _ hu']
          rw [hbeq] at hkv
          rw [hts]
          exact hcore2 u hu' kv hkv

/-- Common shape of the state after a full non-blank `handle_message`
turn for owner `u0`: the owner's bucket became `B2` (empty or the
single fresh entry), and the timers became `tsBase ++ [fresh id]`
where `tsBase` keeps every other owner's timers and has no `u0`-tagged
key left. -/
theorem WF_msg_final (st : BotState) (u0 now : Nat) (B2 : List (String × ReqData))
    (tsBase : List String) (sentX : List (Nat × String))
    (h : WFState st)
    (hB2 : B2 = [] ∨ ∃ d, B2 = [(generate_request_id u0 now, d)])
    (hsub : List.Sublist tsBase st.request_timers)
    (hFu0 : tsBase.filter (fun r => pyStartswith r (ownerTag u0)) = [])
    (hkeep : ∀ x ∈ st.request_timers,
      (∃ v t, x = generate_request_id v t ∧ v ≠ u0) → x ∈ tsBase) :
    WFState { st with user_requests := assocSet st.user_requests u0 B2,
                      request_timers := tsBase ++ [generate_request_id u0 now],
                      sent := sentX } := by
  obtain ⟨h1, h2, h3, h4, h5⟩ := h
  refine ⟨fun u => ?_, fun u kv hkv => ?_, fun u => ?_, fun r hr => ?_,
    keys_assocSet_nodup h5⟩
  · by_cases hu : u = u0
    · subst hu
      show ((assocGet? (assocSet st.user_requests u B2) u).getD []).length ≤ 1
      rw [assocGet?_set_self]
      rcases hB2 with hB2 | ⟨d, hB2⟩ <;> simp [hB2]
    · show ((assocGet? (assocSet st.user_requests u0 B2) u).getD []).length ≤ 1
      rw [assocGet?_set_ne _ _ _ _ hu]
      exact h1 u
  · by_cases hu : u = u0
    · subst hu
      have hbeq : bucketOf ({ st with
          user_requests := assocSet st.user_requests u B2,
          request_timers := tsBase ++ [generate_request_id u now],
          sent := sentX } : BotState) u = B2 := by
        show (assocGet? (assocSet st.user_requests u B2) u).getD [] = B2
        rw [assocGet?_set_self]
        rfl
      rw [hbeq] at hkv
      rcases hB2 with hB2 | ⟨d, hB2⟩
      · rw [hB2] at hkv
        simp at hkv
      · rw [hB2] at hkv
        simp only [List.mem_singleton] at hkv
        subst hkv
        refine ⟨⟨now, rfl⟩, ?_⟩
        show _ ∈ tsBase ++ [generate_request_id u now]
        exact List.mem_append_right _ (List.mem_singleton.mpr rfl)
    · have hbeq : bucketOf ({ st with
          user_requests := assocSet st.user_requests u0 B2,
          request_timers := tsBase ++ [generate_request_id u0 now],
          sent := sentX } : BotState) u = bucketOf st u := by
        show (assocGet? (assocSet st.user_requests u0 B2) u).getD [] = _
        rw [assocGet?_set_ne _ _ _ _ hu]
        rfl
      rw [hbeq] at hkv
      obtain ⟨⟨t, ht⟩, hmem⟩ := h2 u kv hkv
      refine ⟨⟨t, ht⟩, ?_⟩
      show kv.1 ∈ tsBase ++ [generate_request_id u0 now]
      exact List.mem_append_left _ (hkeep kv.1 hmem ⟨u, t, ht, hu⟩)
  · show ((tsBase ++ [generate_request_id u0 now]).filter
      (fun r => pyStartswith r (ownerTag u))).length ≤ 1
    rw [List.filter_append, List.length_append]
    by_cases hu : u = u0
    · subst hu
      rw [hFu0]
      simp [pyStartswith_genId_self]
    · have hone : ([generate_request_id u0 now].filter
          (fun r => pyStartswith r (ownerTag u))).length = 0 := by
        simp [pyStartswith_genId_ne now hu]
      have htwo := ((hsub.filter (fun r => pyStartswith r (ownerTag u))).length_le).trans (h3 u)
      omega
  · have hr' : r ∈ tsBase ++ [generate_request_id u0 now] := hr
    rcases List.mem_append.mp hr' with hr2 | hr2
    · exact h4 r (hsub.subset hr2)
    · rw [List.mem_singleton] at hr2
      exact ⟨u0, now, hr2⟩

theorem WF_handle_message (st : BotState) (u0 : Nat) (text : String) (now : Nat)
    (h : WFState st) : WFState (handle_message st u0 text now) := by
  by_cases hb : pyStrip text = ""
  · refine WFState_congr ?_ ?_ h <;> (unfold handle_message; rw [if_pos hb])
  obtain ⟨h1, h2, h3, h4, h5⟩ := h
  cases hfind : st.request_timers.find? (fun r => pyStartswith r (ownerTag u0)) with
  | none =>
    have hB : bucketOf st u0 = [] := by
      rcases hBu : bucketOf st u0 with _ | ⟨e, es⟩
      · rfl
      · exfalso
        obtain ⟨⟨t, het⟩, hmem⟩ := h2 u0 e (hBu ▸ List.mem_cons_self e es)
        have := List.find?_eq_none.mp hfind e.1 hmem
        rw [het] at this
        exact this (pyStartswith_genId_self u0 t)
    have hridnot : generate_request_id u0 now ∉ st.request_timers := fun hc =>
      (List.find?_eq_none.mp hfind _ hc) (pyStartswith_genId_self u0 now)
    have hstep : handle_message st u0 text now = { st with
        user_requests := assocSet st.user_requests u0
          [(generate_request_id u0 now, { prompt := text, created := now })],
        request_timers := st.request_timers ++ [generate_request_id u0 now],
        sent := st.sent ++ [(u0, confirmationText (generate_request_id u0 now))] } := by
      unfold handle_message
      rw [if_neg hb]
      simp only [handleMessageStore, handleMessageMerge]
      rw [hB]
      simp only [assocSet_nil, hfind]
      simp [timerInstall, hridnot]
    rw [hstep]
    refine WF_msg_final st u0 now _ _ _ ⟨h1, h2, h3, h4, h5⟩
      (Or.inr ⟨_, rfl⟩) (List.Sublist.refl _) ?_ (fun x hx _ => hx)
    rw [List.filter_eq_nil_iff]
    intro x hx
    exact List.find?_eq_none.mp hfind x hx
  | some oldRid =>
    have hpredOld : pyStartswith oldRid (ownerTag u0) = true := by
      have hps := List.find?_some hfind
      simpa using hps
    have hmemOld : oldRid ∈ st.request_timers := List.mem_of_find?_eq_some hfind
    obtain ⟨v, t1, hv⟩ := h4 oldRid hmemOld
    have hvu : v = u0 := ((pyStartswith_ownerTag u0 v t1).mp (hv ▸ hpredOld)).symm
    rw [hvu] at hv
    have hridmem : generate_request_id u0 now ∈ st.request_timers →
        generate_request_id u0 now = oldRid :=
      fun hm => eq_of_filter_len_le_one (h3 u0) hm (pyStartswith_genId_self u0 now)
        hmemOld hpredOld
    have hFu0' : (st.request_timers.erase oldRid).filter
        (fun r => pyStartswith r (ownerTag u0)) = [] := by
      rw [← List.erase_filter, filter_eq_singleton_of (h3 u0) hmemOld hpredOld]
      exact List.erase_cons_head oldRid []
    have hkeep' : ∀ x ∈ st.request_timers,
        (∃ v' t', x = generate_request_id v' t' ∧ v' ≠ u0) →
          x ∈ st.request_timers.erase oldRid := by
      rintro x hx ⟨v', t', hxe, hvne⟩
      refine (List.mem_erase_of_ne ?_).mpr hx
      rw [hxe, hv]
      intro hc
      exact hvne (generate_request_id_inj hc).1
    have hnotin : generate_request_id u0 now ∉ st.request_timers.erase oldRid := by
      by_cases hro : generate_request_id u0 now = oldRid
      · rw [hro]
        exact not_mem_erase_self_of_filter_le_one hpredOld (h3 u0)
      · intro hc
        exact hro (hridmem (List.mem_of_mem_erase hc))
    rcases hBu : bucketOf st u0 with _ | ⟨e, es⟩
    · by_cases hro : generate_request_id u0 now = oldRid
      · have hnotin2 : generate_request_id u0 now
            ∉ st.request_timers.erase (generate_request_id u0 now) := by
          rw [hro]
          exact not_mem_erase_self_of_filter_le_one hpredOld (h3 u0)
        have hstep : handle_message st u0 text now = { st with
            user_requests := assocSet st.user_requests u0 [],
            request_timers := (st.request_timers.erase oldRid)
              ++ [generate_request_id u0 now],
            sent := st.sent ++ [(u0, confirmationText (generate_request_id u0 now))] } := by
          unfold handle_message
          rw [if_neg hb]
          simp only [handleMessageStore, handleMessageMerge]
          rw [hBu]
          simp only [assocSet_nil, hfind]
          simp [← hro, bucketOf, assocGet?_set_self, assocGet?_cons, assocModify_cons,
            assocErase_cons, assocSet_assocSet, timerInstall, hnotin, hnotin2]
        rw [hstep]
        exact WF_msg_final st u0 now _ _ _ ⟨h1, h2, h3, h4, h5⟩
          (Or.inl rfl) (List.erase_sublist _ _) hFu0' hkeep'
      · have hstep : handle_message st u0 text now = { st with
            user_requests := assocSet st.user_requests u0
              [(generate_request_id u0 now, { prompt := text, created := now })],
            request_timers := (st.request_timers.erase oldRid)
              ++ [generate_request_id u0 now],
            sent := st.sent ++ [(u0, confirmationText (generate_request_id u0 now))] } := by
          unfold handle_message
          rw [if_neg hb]
          simp only [handleMessageStore, handleMessageMerge]
          rw [hBu]
          simp only [assocSet_nil, hfind]
          simp [bucketOf, assocGet?_set_self, assocGet?_cons, hro, Ne.symm hro,
            timerInstall, hnotin]
        rw [hstep]
        exact WF_msg_final st u0 now _ _ _ ⟨h1, h2, h3, h4, h5⟩
          (Or.inr ⟨_, rfl⟩) (List.erase_sublist _ _) hFu0' hkeep'
    · have hes : es = [] := by
        have := h1 u0
        rw [hBu] at this
        simp only [List.length_cons] at this
        exact List.length_eq_zero.mp (by omega)
      subst hes
      have he1 : e.1 = oldRid := by
        obtain ⟨⟨te, hte⟩, hmem⟩ := h2 u0 e (hBu ▸ List.mem_cons_self e [])
        exact eq_of_filter_len_le_one (h3 u0) hmem
          (hte ▸ pyStartswith_genId_self u0 te) hmemOld hpredOld
      by_cases hre : e.1 = generate_request_id u0 now
      · have hro2 : generate_request_id u0 now = oldRid := by
          rw [← hre, he1]
        have hnotin2 : generate_request_id u0 now
            ∉ st.request_timers.erase (generate_request_id u0 now) := by
          rw [hro2]
          exact not_mem_erase_self_of_filter_le_one hpredOld (h3 u0)
        have hstep : handle_message st u0 text now = { st with
            user_requests := assocSet st.user_requests u0 [],
            request_timers := (st.request_timers.erase oldRid)
              ++ [generate_request_id u0 now],
            sent := st.sent ++ [(u0, confirmationText (generate_request_id u0 now))] } := by
          unfold handle_message
          rw [if_neg hb]
          simp only [handleMessageStore, handleMessageMerge]
          rw [hBu]
          simp only [assocSet_cons, if_pos hre, assocSet_nil, hfind]
          simp [bucketOf, assocGet?_set_self, assocGet?_cons, ← he1, hre,
            assocModify_cons, assocErase_cons, assocSet_assocSet, timerInstall, hnotin,
            hnotin2]
        rw [hstep]
        exact WF_msg_final st u0 now _ _ _ ⟨h1, h2, h3, h4, h5⟩
          (Or.inl rfl) (List.erase_sublist _ _) hFu0' hkeep'
      · have hne4 : ¬ oldRid = generate_request_id u0 now := by
          rw [← he1]
          exact hre
        have hne5 : ¬ generate_request_id u0 now = oldRid := fun hc => hne4 hc.symm
        have hstep : handle_message st u0 text now = { st with
            user_requests := assocSet st.user_requests u0
              [(generate_request_id u0 now,
                { prompt := e.2.prompt ++ separatorMarker ++ text, created := now })],
            request_timers := (st.request_timers.erase oldRid)
              ++ [generate_request_id u0 now],
            sent := st.sent ++ [(u0, confirmationText (generate_request_id u0 now))] } := by
          unfold handle_message
          rw [if_neg hb]
          simp only [handleMessageStore, handleMessageMerge]
          rw [hBu]
          simp only [assocSet_cons, if_neg hre, assocSet_nil, hfind]
          simp [bucketOf, assocGet?_set_self, assocGet?_cons, he1, hne4, hne5,
            assocModify_cons, assocErase_cons, assocSet_assocSet, timerInstall, hnotin]
        rw [hstep]
        exact WF_msg_final st u0 now _ _ _ ⟨h1, h2, h3, h4, h5⟩
          (Or.inr ⟨_, rfl⟩) (List.erase_sublist _ _) hFu0' hkeep'

theorem WF_stepEvent (st : BotState) (e : Event) (h : WFState st) :
    WFState (stepEvent st e) := by
  cases e with
  | msg u text now => exact WF_handle_message st u text now h
  | fire u t o => exact WF_fire st u t o h
  | statusQuery u => exact WF_cmd_status st u h
  | cancelAll u => exact WF_cmd_cancel st u h

theorem WF_runEvents (st : BotState) (evs : List Event) (h : WFState st) :
    WFState (runEvents st evs) := by
  induction evs generalizing st with
  | nil => exact h
  | cons e es ih => exact ih (stepEvent st e) (WF_stepEvent st e h)

/-- C2 amended: the at-most-one-pending-request-per-owner invariant
holds at every *event-turn boundary* — after any sequence of complete
events (messages, timer firings, `/status`, `/cancel`) from startup —
but not across the suspension point inside `handle_message` at the
`await message.answer(...)` of line 294, where two entries briefly
coexist.  The merge segment that runs after that await is itself
suspension-free, and (whenever the new arrival instant differs from
the pending request's creation instant) atomically retires the old id
and its timer and installs a new id whose text combines the old and
new texts with the separator marker. -/
theorem C2_amended :
    (∀ keys evs u,
      (bucketOf (runEvents (initState keys) evs) u).length ≤ 1) ∧
    (∀ (st : BotState) (u oldT newT : Nat) (oldD : ReqData) (text : String),
      st.user_requests = [(u, [(generate_request_id u oldT, oldD)])] →
      st.request_timers = [generate_request_id u oldT] →
      ¬ pyStrip text = "" → newT ≠ oldT →
      handle_message st u text newT = { st with
        user_requests := [(u, [(generate_request_id u newT,
          { prompt := oldD.prompt ++ separatorMarker ++ text, created := newT })])],
        request_timers := [generate_request_id u newT],
        sent := st.sent ++ [(u, confirmationText (generate_request_id u newT))] }) :=
  ⟨fun keys evs u => (WF_runEvents (initState keys) evs (WFState_initState keys)).1 u,
   fun st u oldT newT oldD text h1 h2 h3 h4 => merge_step st u oldT newT oldD text h1 h2 h3 h4⟩

set_option maxRecDepth 16384 in
/-- Witness for C2 amended at a concrete run: owner 1 sends "A" at
t=0 and "B" at t=10; at the turn boundary the store holds one entry,
and the merge retires id `1_0` and its timer and installs `1_10` with
the combined text. -/
theorem C2_amended_witness :
    (bucketOf (runEvents (initState ["K1"])
        [Event.msg 1 "A" 0, Event.msg 1 "B" 10]) 1).length ≤ 1 ∧
    handle_message (handle_message (initState ["K1"]) 1 "A" 0) 1 "B" 10
      = { handle_message (initState ["K1"]) 1 "A" 0 with
          user_requests := [(1, [(generate_request_id 1 10,
            { prompt := "A" ++ separatorMarker ++ "B", created := 10 })])],
          request_timers := [generate_request_id 1 10],
          sent := (handle_message (initState ["K1"]) 1 "A" 0).sent
            ++ [(1, confirmationText (generate_request_id 1 10))] } :=
  ⟨C2_amended.1 ["K1"] [Event.msg 1 "A" 0, Event.msg 1 "B" 10] 1,
   C2_amended.2 (handle_message (initState ["K1"]) 1 "A" 0) 1 0 10 ⟨"A", 0⟩ "B"
     (by decide) (by decide) (by decide) (by decide)⟩

end Kopiraiter
